import Mathlib

/-!
Verification of the democracyclock step-2 pipeline (Python sources) via a
shallow embedding in Lean 4.

Conventions used throughout:

* Python `datetime.date` values are represented by their day number
  (days since 1970-01-01, proleptic Gregorian).  Python date comparison and
  `timedelta(days=k)` arithmetic correspond exactly to integer comparison
  and addition on day numbers.  `daysFromCivil` is the standard civil-date
  to day-number conversion used to state concrete calendar dates.
* Python strings are represented as `List Char`; `str.strip` / `str.rstrip`
  with no arguments strip the ASCII whitespace characters
  (space, \t, \n, \r, \x0b, \x0c).  Unicode-only whitespace is not modelled.
* Texts are split into lines at.'\n' (the only line boundary recognised by
  Python's `re.M` anchors, which is how the sources scan line-structured
  text).
-/

namespace Step2

/-! ## Python string primitives -/

/-- The whitespace set of Python's default `str.strip()` (ASCII part) and of
regex `\s` (ASCII part). -/
def pyIsSpace (c : Char) : Bool :=
  c = ' ' || c = '\t' || c = '\n' || c = '\r' || c = '\x0b' || c = '\x0c'

/-- Python `s.strip(chars)`: drop characters satisfying `p` from both ends. -/
def pyStripP (p : Char → Bool) (l : List Char) : List Char :=
  ((l.dropWhile p).reverse.dropWhile p).reverse

/-- Python `s.strip()` (no argument). -/
def pyTrim (l : List Char) : List Char := pyStripP pyIsSpace l

/-- Python `s.rstrip()`. -/
def pyRstrip (l : List Char) : List Char :=
  (l.reverse.dropWhile pyIsSpace).reverse

/-- Python `s.lstrip()`. -/
def pyLstrip (l : List Char) : List Char := l.dropWhile pyIsSpace

/-- Split a character list at every occurrence of characters satisfying `p`
(the separators are consumed); mirrors `re.split` on a single-character
class.  `splitP p [] = [[]]`, like Python's `"".split(c)`. -/
def splitP (p : Char → Bool) : List Char → List (List Char)
  | [] => [[]]
  | c :: l =>
    if p c then [] :: splitP p l
    else
      match splitP p l with
      | [] => [[c]]
      | a :: r => (c :: a) :: r

/-- Split into lines at `'\n'` (the line boundary of `re.M` anchors). -/
def toLines (l : List Char) : List (List Char) := splitP (· = '\n') l

/-- Substring containment, Python `sub in s`. -/
def containsSub (sub l : List Char) : Bool :=
  l.tails.any (fun t => sub.isPrefixOf t)

/-- Python `str.lower` (ASCII). -/
def pyLower (l : List Char) : List Char := l.map Char.toLower

/-! ## Calendar primitives (`step2_helper_v4.py`) -/

/-- Day number (days since 1970-01-01) of the Gregorian date y-m-d.
Standard civil-from-days inverse (Howard Hinnant's algorithm); all
intermediate divisions act on non-negative operands for the years used
here, so the division convention is immaterial. -/
def daysFromCivil (y m d : Int) : Int :=
  let y2 : Int := if m ≤ 2 then y - 1 else y
  let era : Int := (if 0 ≤ y2 then y2 else y2 - 399) / 400
  let yoe : Int := y2 - era * 400
  let mp : Int := (m + 9) % 12
  let doy : Int := (153 * mp + 2) / 5 + d - 1
  let doe : Int := yoe * 365 + yoe / 4 - yoe / 100 + doy
  era * 146097 + doe - 719468

/-- Day of the week of a day number, 0 = Sunday … 6 = Saturday
(1970-01-01 was a Thursday, value 4). -/
def dayOfWeek (d : Int) : Int := (d + 4) % 7

/-- `INAUGURATION_DAY = date(2025, 1, 20)` (a Monday). -/
def INAUGURATION_DAY : Int := daysFromCivil 2025 1 20

/-- `FIRST_FRIDAY = date(2025, 1, 24)` (Friday of week 1). -/
def FIRST_FRIDAY : Int := daysFromCivil 2025 1 24

/-- `FIRST_SATURDAY = date(2025, 1, 25)` (start of week 2). -/
def FIRST_SATURDAY : Int := daysFromCivil 2025 1 25

/-- Python truthiness of an optional integer argument (`if weeks:`):
false for `None` and for `0`. -/
def truthy : Option Int → Bool
  | none => false
  | some n => n != 0

/-- `resolve_date_window` from `step2_helper_v4.py`.

`start`/`end_` model the `--start`/`--end` CLI strings after
`date.fromisoformat`: a supplied (non-empty) argument is `some` of its day
number.  `weeks`/`week` are the optional integer arguments; Python's `if
weeks:` truthiness (0 behaves like absent) is modelled by `truthy`.
`ValueError` is modelled as `Except.error` with the source's message. -/
def resolve_date_window (start end_ weeks week : Option Int) :
    Except String (Int × Int) :=
  match start with
  | some start_d =>
    match end_ with
    | some end_d => .ok (start_d, end_d)
    | none =>
      if truthy weeks then
        let w := weeks.getD 0
        if w < 1 then .error "--weeks must be ≥ 1"
        else .ok (start_d, start_d + 7 * w - 1)
      else .error "Must specify either --end or --weeks with --start"
  | none =>
    if truthy week then
      let n := week.getD 0
      if n < 1 then .error "--week must be ≥ 1"
      else
        let start_d := if n = 1 then INAUGURATION_DAY
                       else FIRST_SATURDAY + (n - 2) * 7
        let end_d := if n = 1 then FIRST_FRIDAY else start_d + 6
        let end_d := if truthy weeks && decide (1 < weeks.getD 0) then
                       end_d + 7 * (weeks.getD 0 - 1)
                     else end_d
        .ok (start_d, end_d)
    else .error "Must specify either (--start and --end|--weeks) or (--week [--weeks])"

/-! ## Week bucketing (`step2_writeweekevents_v4.py`) -/

/-- `_ANCHOR_W1_START = date(2025, 1, 20)`. -/
def _ANCHOR_W1_START : Int := daysFromCivil 2025 1 20

/-- `_ANCHOR_W1_END = date(2025, 1, 24)`. -/
def _ANCHOR_W1_END : Int := daysFromCivil 2025 1 24

/-- `_ANCHOR_W2_START = date(2025, 1, 25)`. -/
def _ANCHOR_W2_START : Int := daysFromCivil 2025 1 25

/-- `dc_week_for` from `step2_writeweekevents_v4.py`: week number and window
for a date under the Democracy Clock convention, `none` before 2025-01-20.
Python's floor division `//` is `Int.fdiv`. -/
def dc_week_for (d : Int) : Option (Int × Int × Int) :=
  if d < _ANCHOR_W1_START then none
  else if d ≤ _ANCHOR_W1_END then some (1, _ANCHOR_W1_START, _ANCHOR_W1_END)
  else
    let delta_days := d - _ANCHOR_W2_START
    let week_offset := Int.fdiv delta_days 7
    let week_num := 2 + week_offset
    let start := _ANCHOR_W2_START + 7 * week_offset
    some (week_num, start, start + 6)

/-- `True` iff the resolver raised (modelled `Except.error`). -/
def isError {ε α : Type} : Except ε α → Bool
  | .error _ => true
  | .ok _ => false

/-! ## Compliance scan (`step2_extractor_v4.py`) -/

/-- Result record of `_preparse_compliance_scan` (the Python dict's keys). -/
structure ComplianceScan where
  has_footer_end_of_log : Bool
  has_total_events : Bool
  count_category_lines : Nat
  count_why_lines : Nat
  count_attacks_lines : Nat
  detected_event_blocks : Nat

/-- Does the regex `LABEL\s*.+$` match starting at this line's start, where
`rest` is the list of following lines?  By the semantics of Python's
greedy-with-backtracking `\s*` (which may also consume newlines) followed
by `.+` (at least one non-newline character) and `$` (before a newline or
at end, under `re.M`), the match succeeds iff some non-newline character
occurs at or after the position just past the label — i.e. the label's own
line continues, or some later line is non-empty. -/
def lineStartsMatch (label l : List Char) (rest : List (List Char)) : Bool :=
  label.isPrefixOf l &&
    (!(l.drop label.length).isEmpty || rest.any (fun t => !t.isEmpty))

/-- Number of line starts at which `^LABEL\s*.+$` (re.M) matches.  Python's
`len(re.findall(...))` counts non-overlapping matches, which can differ
when a match crosses line boundaries through `\s*`; the two counts are
positive in exactly the same cases, and the scan's consumers
(`_needs_schema_retry`) only compare the count with zero. -/
def labeledLineCount (label : List Char) : List (List Char) → Nat
  | [] => 0
  | l :: ls => (if lineStartsMatch label l ls then 1 else 0) + labeledLineCount label ls

/-- Match `\d{4}-\d{2}-\d{2}` at the front; return the ten date characters
and the remainder. -/
def matchDate10 : List Char → Option (List Char × List Char)
  | y1 :: y2 :: y3 :: y4 :: '-' :: m1 :: m2 :: '-' :: d1 :: d2 :: rest =>
    if y1.isDigit && y2.isDigit && y3.isDigit && y4.isDigit &&
        m1.isDigit && m2.isDigit && d1.isDigit && d2.isDigit then
      some ([y1, y2, y3, y4, '-', m1, m2, '-', d1, d2], rest)
    else none
  | _ => none

/-- Match `\s+—\s+(.+)$` against the rest of a single line (no newlines),
returning group 1.  The regex engine's backtracking admits one corner: when
everything after the em dash is whitespace, `.+` can still capture the final
whitespace character provided at least two characters follow the dash. -/
def matchDashTitle (rest : List Char) : Option (List Char) :=
  match rest with
  | [] => none
  | c :: _ =>
    if pyIsSpace c then
      match rest.dropWhile pyIsSpace with
      | '—' :: r2 =>
        match r2 with
        | [] => none
        | c2 :: _ =>
          if pyIsSpace c2 then
            let t := r2.dropWhile pyIsSpace
            if !t.isEmpty then some t
            else if 2 ≤ r2.length then
              match r2.getLast? with
              | some cl => some [cl]
              | none => none
            else none
          else none
      | _ => none
    else none

/-- One line matches `_EVENT_TITLE_RE = ^\s*\d{4}-\d{2}-\d{2}\s+—\s+.+$`
(re.M), applied at line granularity. -/
def eventTitleLine (l : List Char) : Bool :=
  match matchDate10 (l.dropWhile pyIsSpace) with
  | some (_, rest) => (matchDashTitle rest).isSome
  | none => false

/-- Does `Total events found:\s*\[\d+\]` match at the start of `l`? -/
def matchTotalAt (l : List Char) : Bool :=
  let label := "Total events found:".data
  label.isPrefixOf l &&
    (match (l.drop label.length).dropWhile pyIsSpace with
     | '[' :: r =>
       (match r with
        | c :: _ =>
          c.isDigit &&
            (match r.dropWhile Char.isDigit with
             | ']' :: _ => true
             | _ => false)
        | [] => false)
     | _ => false)

/-- `_preparse_compliance_scan` from `step2_extractor_v4.py`. -/
def _preparse_compliance_scan (text : List Char) : ComplianceScan :=
  if text.isEmpty then
    { has_footer_end_of_log := false, has_total_events := false
      count_category_lines := 0, count_why_lines := 0
      count_attacks_lines := 0, detected_event_blocks := 0 }
  else
    let lines := toLines text
    { has_footer_end_of_log := containsSub "[END OF LOG]".data text
      has_total_events := text.tails.any matchTotalAt
      count_category_lines := labeledLineCount "Category:".data lines
      count_why_lines := labeledLineCount "Why Relevant:".data lines
      count_attacks_lines := labeledLineCount "Attacks:".data lines
      detected_event_blocks := (lines.filter eventTitleLine).length }

/-- `_needs_schema_retry` from `step2_extractor_v4.py`. -/
def _needs_schema_retry (out_text : List Char) : Bool :=
  if out_text.isEmpty || (pyTrim out_text).isEmpty then true
  else
    let comp := _preparse_compliance_scan out_text
    if comp.has_footer_end_of_log = false then true
    else if comp.count_category_lines = 0 then true
    else if comp.count_why_lines = 0 then true
    else if comp.count_attacks_lines = 0 then true
    else false

/-! ## Extraction orchestration (`step2_extractor_v4.py`)

The completion service (`call_openai`) is an external effect; it is
modelled as an oracle `complete : List Message → Except (List Char)
(List Char)` mapping a message list to either a reply text or a raised
exception.  Message construction (`build_messages`) and the debug-artifact
writers are I/O plumbing orthogonal to the claims and are not modelled;
the message list is taken as given. -/

/-- A chat message: (role, content). -/
abbrev Message := List Char × List Char

/-- The corrective user instruction of `_retry_append_instruction`. -/
def retryUserContent : List Char :=
  ("Your previous output failed the Canonical Extraction Protocol.\n" ++
   "Re-emit the ENTIRE output now EXACTLY per schema with:\n" ++
   "1) BEGIN LOG / END OF LOG delimiters\n" ++
   "2) For every event: a 'Category:' line and a 'Why Relevant:' line\n" ++
   "3) Plain TEXT only (no JSON, no code fences, no commentary)\n" ++
   "Do not summarize. Do not explain. Output the corrected log only.").data

/-- `_retry_append_instruction`: append the single corrective user message. -/
def _retry_append_instruction (messages : List Message) : List Message :=
  messages ++ [("user".data, retryUserContent)]

/-- The shared call-scan-retry core of `extract_events_from_url` and
`extract_events_from_text` (their post-fetch halves are textually
identical).  Returns the final reply text together with the list of
message lists sent to the completion service, in order.  An exception from
the service propagates (the source wraps no try/except around
`call_openai`). -/
def extractLLM (complete : List Message → Except (List Char) (List Char))
    (messages : List Message) :
    Except (List Char) (List Char × List (List Message)) :=
  match complete messages with
  | .error e => .error e
  | .ok out_text =>
    if pyTrim out_text == "RETRY_SCHEMA".data || _needs_schema_retry out_text then
      let messages_retry := _retry_append_instruction messages
      match complete messages_retry with
      | .error e => .error e
      | .ok out_text_retry =>
        let out2 := if _needs_schema_retry out_text_retry = false then
                      pyTrim out_text_retry
                    else out_text
        .ok (pyTrim out2, [messages, messages_retry])
    else .ok (pyTrim out_text, [messages])

/-- The sentinel reply `extract_events_from_url` substitutes when the
article fetch fails (`rc != 200` or empty body). -/
def failSentinel (url : List Char) (rc : Int) : List Char :=
  "(Fetch failed for ".data ++ url ++ " with RC=".data ++ (toString rc).data ++ ")".data

/-- `extract_events_from_url`, with the article fetch's outcome
`(article_text, rc)` and the completion service supplied as parameters
(both are remote effects).  The fetch-failed branch returns the sentinel
string; otherwise the call-scan-retry core runs, and any
completion-service exception propagates out of the function. -/
def extract_events_from_url (url : List Char) (fetchResult : List Char × Int)
    (messages : List Message)
    (complete : List Message → Except (List Char) (List Char)) :
    Except (List Char) (List Char) :=
  let art_text := fetchResult.1
  let rc := fetchResult.2
  if rc != 200 || (pyTrim art_text).isEmpty then .ok (failSentinel url rc)
  else
    match extractLLM complete messages with
    | .error e => .error e
    | .ok (t, _) => .ok t

/-- The per-item `try/except` wrapper eight of the nine feed builders
place around the extractor call (`step2_builddemocracydocket_v4.py`,
`step2_buildcongress_v4.py`, `step2_buildballotpedia_orders_v4.py`,
`step2_buildballotpedia_shadow_v4.py`, `step2_buildecon_v4.py`,
`step2_buildfederalregister_v4.py`, `step2_buildguardian_v4.py`,
`step2_buildnoah_v4.py`): an exception becomes the text
`"(Extraction error: ...)"`. -/
def builder_llm_text (result : Except (List Char) (List Char)) : List Char :=
  match result with
  | .ok t => t
  | .error e => "(Extraction error: ".data ++ e ++ ")".data

/-- The per-item `try/except` wrapper of the remaining builder,
`step2_buildhcr_v4.py` (line 200): its sentinel is the different text
`"(LLM extraction failed: ...)"`. -/
def hcr_llm_text (result : Except (List Char) (List Char)) : List Char :=
  match result with
  | .ok t => t
  | .error e => "(LLM extraction failed: ".data ++ e ++ ")".data

/-! ## Canonical event-block parser (`step2_builder_helper_v4.py`) -/

/-- The structured event dict produced per block by
`_parse_llm_events_canonical`. -/
structure EventRec where
  date : List Char
  title : List Char
  url : List Char
  summary : List Char
  category : List Char
  why_relevant : List Char
  attacks : List (List Char)
deriving DecidableEq

/-- Match `_HEADER_RE = ^(?:===\s*)?(\d{4}-\d{2}-\d{2})\s+—\s+(.+)$` (re.M)
against one line; returns (group 1, group 2).  The optional `===\s*` prefix
is consumed greedily; when it is present but the rest fails, the
alternative without it cannot succeed either ('=' is not a digit), so the
translation is deterministic. -/
def matchHeaderGroups (l : List Char) : Option (List Char × List Char) :=
  let body := if "===".data.isPrefixOf l then (l.drop 3).dropWhile pyIsSpace else l
  match matchDate10 body with
  | none => none
  | some (date10, rest) =>
    match matchDashTitle rest with
    | none => none
    | some g2 => some (date10, g2)

/-- The apostrophe character (Python's `strip("'")` argument). -/
def squote : Char := Char.ofNat 39

/-- Match `_ATK_RE = ^"?attacks"?\s*:\s*(.+)$` (IGNORECASE) against one
line, returning `m.group(1).strip()` — which, by the backtracking
semantics of `\s*(.+)$` on a single line, equals the stripped remainder
after the colon; there is no match when nothing follows the colon. -/
def matchAtkValue (l : List Char) : Option (List Char) :=
  let l1 := match l with
            | '"' :: r => r
            | _ => l
  if pyLower (l1.take 7) = "attacks".data then
    let l2 := l1.drop 7
    let l3 := match l2 with
              | '"' :: r => r
              | _ => l2
    match l3.dropWhile pyIsSpace with
    | ':' :: r => if r.isEmpty then none else some (pyTrim r)
    | _ => none
  else none

/-- Accumulator for the labeled-field loop of the block parser (the local
variables `summary`, `category`, `why`, `alt_source_line`,
`attacks_line`). -/
structure BlockFields where
  summary : List Char
  category : List Char
  why : List Char
  alt_source_line : List Char
  attacks_line : List Char
deriving DecidableEq

/-- One iteration of the labeled-field loop: the `elif` chain of
`_parse_llm_events_canonical` (case-sensitive `startswith` tests for
`Summary:` / `Category:` / `Why Relevant:` / `Source:`, then the
case-insensitive attacks pattern); a later line overwrites an earlier
assignment of the same field. -/
def applyLine (acc : BlockFields) (ln : List Char) : BlockFields :=
  if "Summary:".data.isPrefixOf ln then
    { acc with summary := pyTrim (ln.drop "Summary:".data.length) }
  else if "Category:".data.isPrefixOf ln then
    { acc with category := pyTrim (ln.drop "Category:".data.length) }
  else if "Why Relevant:".data.isPrefixOf ln then
    { acc with why := pyTrim (ln.drop "Why Relevant:".data.length) }
  else if "Source:".data.isPrefixOf ln then
    { acc with alt_source_line := pyTrim (ln.drop "Source:".data.length) }
  else
    match matchAtkValue ln with
    | some v => { acc with attacks_line := v }
    | none => acc

/-- The labeled-field loop over the block's remaining lines. -/
def scanFields (lns : List (List Char)) : BlockFields :=
  lns.foldl applyLine ⟨[], [], [], [], []⟩

/-- Whether `https?://\S+` matches at the start of `l`: a scheme prefix
followed by at least one non-whitespace character (`\S+` needs one; with a
whitespace or end right after `http://` the regex engine finds no match at
this position, also by backtracking `s?`). -/
def urlAt (l : List Char) : Bool :=
  ("http://".data.isPrefixOf l &&
    (match l.drop 7 with | d :: _ => !pyIsSpace d | [] => false)) ||
  ("https://".data.isPrefixOf l &&
    (match l.drop 8 with | d :: _ => !pyIsSpace d | [] => false))

/-- `re.search(r"(https?://\S+)", s)`: the first URL token embedded
anywhere in the line (earliest position where the pattern matches, then
maximal run of non-whitespace). -/
def findFirstUrl : List Char → Option (List Char)
  | [] => none
  | c :: rest =>
    if urlAt (c :: rest) then
      some ((c :: rest).takeWhile (fun ch => !pyIsSpace ch))
    else findFirstUrl rest

/-- Normalization of the attacks value into a list of handles: strip an
outer bracket pair, split at `,`/`;`, strip whitespace then double then
single quotes from each part, drop empties, lower-case and replace
spaces with underscores. -/
def normalizeAttacks (attacks_line : List Char) : List (List Char) :=
  if attacks_line.isEmpty then []
  else
    let cleaned := pyTrim attacks_line
    let inner :=
      if (match cleaned with | '[' :: _ => true | _ => false)
          && (match cleaned.getLast? with | some cl => cl = ']' | none => false) then
        pyTrim (cleaned.drop 1).dropLast
      else cleaned
    (splitP (fun c => c = ',' || c = ';') inner).filterMap
      (fun part =>
        let h := pyStripP (· = squote) (pyStripP (· = '"') (pyTrim part))
        if h.isEmpty then none
        else some ((pyLower h).map (fun c => if c = ' ' then '_' else c)))

/-- Build the event dict for one block.  `blockLines` are the raw lines
from the header line up to (excluding) the next header line; the source
strips the block, splits it into lines, filters blank lines and rstrips
each — at line granularity that is filter-then-rstrip.  Then: optional
direct URL line right after the header, labeled-field loop, first URL
token of the `Source:` line when no direct URL, fallback to the caller's
`article_url`. -/
def mkEvent (article_url date10 g2 : List Char) (blockLines : List (List Char)) :
    EventRec :=
  let lns := (blockLines.filter (fun ln => !(pyTrim ln).isEmpty)).map pyRstrip
  let date_iso := pyTrim date10
  let title := pyTrim g2
  let urlAndRest : List Char × List (List Char) :=
    match lns with
    | [] => ([], [])
    | _ :: rest =>
      match rest with
      | l1 :: rest2 =>
        if "http://".data.isPrefixOf l1 || "https://".data.isPrefixOf l1 then
          (pyTrim l1, rest2)
        else ([], rest)
      | [] => ([], [])
  let url0 := urlAndRest.1
  let f := scanFields urlAndRest.2
  let url1 :=
    if url0.isEmpty && !f.alt_source_line.isEmpty then
      (findFirstUrl f.alt_source_line).getD url0
    else url0
  { date := date_iso
    title := title
    url := if url1.isEmpty then article_url else url1
    summary := f.summary
    category := f.category
    why_relevant := f.why
    attacks := normalizeAttacks f.attacks_line }

/-- Fold step grouping lines into blocks: scanning from the end, a
non-header line joins the pending block below the previous header; a
header line closes the pending block into an event.  Lines before the
first header belong to no block (as in the source, where blocks start at
header matches). -/
def parseStep (article_url : List Char) (l : List Char)
    (acc : List (List Char) × List EventRec) :
    List (List Char) × List EventRec :=
  match matchHeaderGroups l with
  | some (date10, g2) => ([], mkEvent article_url date10 g2 (l :: acc.1) :: acc.2)
  | none => (l :: acc.1, acc.2)

/-- `_parse_llm_events_canonical` from `step2_builder_helper_v4.py`, at
line granularity: blocks run from each header line up to the next header
line or the end of the text. -/
def _parse_llm_events_canonical (text article_url : List Char) : List EventRec :=
  if (pyTrim text).isEmpty then []
  else ((toLines text).foldr (parseStep article_url) ([], [])).2

/-- Join strings with a separator (used to synthesize the attacks list). -/
def joinSep (sep : List Char) : List (List Char) → List Char
  | [] => []
  | [t] => t
  | t :: t2 :: ts => t ++ sep ++ joinSep sep (t2 :: ts)

/-- The synthetic canonical block of the round-trip property: header line
`DATE — TITLE`, then `Summary:` / `Category:` / `Why Relevant:` lines,
then an `attacks:` list line. -/
def mkCanonicalBlock (date10 title summary category why : List Char)
    (attacks : List (List Char)) : List Char :=
  date10 ++ " — ".data ++ title ++ "\n".data ++
  "Summary: ".data ++ summary ++ "\n".data ++
  "Category: ".data ++ category ++ "\n".data ++
  "Why Relevant: ".data ++ why ++ "\n".data ++
  "attacks: [".data ++ joinSep ", ".data attacks ++ "]".data

/-- The claim's normal form of one attack token: strip surrounding double
then single quotes, lower-case, spaces to underscores. -/
def normAttackToken (t : List Char) : List Char :=
  (pyLower (pyStripP (· = squote) (pyStripP (· = '"') t))).map
    (fun c => if c = ' ' then '_' else c)

/-- Python line-boundary characters of `str.splitlines` (ASCII range plus
U+0085, U+2028, U+2029): a value placed on one line of a canonical block
must contain none of these. -/
def pyIsLineBreak (c : Char) : Bool :=
  c = '\n' || c = '\r' || c = '\x0b' || c = '\x0c' ||
  c = '\x1c' || c = '\x1d' || c = '\x1e' || c = '\x85' ||
  c = ' ' || c = ' '

/-- A value safely embeddable after a label on one line: single-line and
already stripped. -/
def valueOk (v : List Char) : Bool :=
  v.all (fun c => !pyIsLineBreak c) && pyTrim v == v

/-- Wellformedness of one attack token in a synthesized attacks list:
single-line, stripped, free of the list separators, and non-empty after
quote stripping. -/
def tokOk (t : List Char) : Bool :=
  valueOk t && t.all (fun c => !(c = ',' || c = ';')) &&
    !(pyStripP (· = squote) (pyStripP (· = '"') t)).isEmpty

/-- The last assigned value of one labeled field over a list of lines
(label stripped, then stripped of whitespace); `[]` when no line carries
the label. -/
def lastValueOf (label : List Char) (lns : List (List Char)) : List Char :=
  match (lns.filter (fun ln => label.isPrefixOf ln)).getLast? with
  | some ln => pyTrim (ln.drop label.length)
  | none => []

/-! ## Master merge ordering (`step2_writeweekevents_v4.py`) -/

/-- `CATEGORY_ORDER`: the fixed canonical category order. -/
def CATEGORY_ORDER : List (List Char) :=
  ["Executive Actions & Orders".data,
   "Legislative & Oversight Activity".data,
   "Judicial Developments".data,
   "Law Enforcement & Surveillance".data,
   "Elections & Representation".data,
   "Civil Society & Protest".data,
   "Information & Media Control".data,
   "Economic & Regulatory Power".data,
   "Appointments & Patronage".data,
   "Transparency & Records".data,
   "International Relations".data,
   "Civil–Military Relations & State Violence".data]

/-- Python `list.index` wrapped in `try/except` (`None` for `ValueError`). -/
def listIndex (x : List Char) : List (List Char) → Option Nat
  | [] => none
  | y :: ys => if y = x then some 0 else (listIndex x ys).map (· + 1)

/-- `_cat_rank` from `step2_writeweekevents_v4.py`: canonical index for known
categories, `len(CATEGORY_ORDER)` for unknown non-empty ones (just after the
last known value), `len(CATEGORY_ORDER) + 1` for blank. -/
def _cat_rank (cat : List Char) : Nat × List Char :=
  if cat.isEmpty then (CATEGORY_ORDER.length + 1, [])
  else
    match listIndex cat CATEGORY_ORDER with
    | some i => (i, cat)
    | none => (CATEGORY_ORDER.length, cat)

/-- The normalized per-event record of the master writer (dataclass
`EventRow`); `date_obj` is the optional parsed date as a day number. -/
structure EventRow where
  source_key : List Char
  date_iso : List Char
  date_obj : Option Int
  category : List Char
  title : List Char
  source_label : List Char
  url : List Char
  summary : List Char
  why : List Char
  attacks : List (List Char)
  origin_file : List Char
  origin_index : Nat
deriving DecidableEq

/-- `date.max` (9999-12-31) as a day number: the key used for rows with no
date (`ev.date_obj or date.max`). -/
def dateMax : Int := daysFromCivil 9999 12 31

/-- `sort_key`: `(date_obj or date.max, _cat_rank(category)[0],
source_key.lower(), title.lower())`, compared lexicographically as in
Python tuple comparison (strings by code point). -/
def sort_key (ev : EventRow) : Int ×ₗ (Nat ×ₗ ((List Char) ×ₗ (List Char))) :=
  toLex ((match ev.date_obj with | some d => d | none => dateMax),
    toLex ((_cat_rank ev.category).1,
      toLex (pyLower ev.source_key, pyLower ev.title)))

/-- The sort relation of `all_rows.sort(key=sort_key)`. -/
def rowLe (a b : EventRow) : Prop := sort_key a ≤ sort_key b

instance : DecidableRel rowLe :=
  fun a b => inferInstanceAs (Decidable (sort_key a ≤ sort_key b))

instance : IsTotal EventRow rowLe := ⟨fun a b => le_total (sort_key a) (sort_key b)⟩

instance : IsTrans EventRow rowLe := ⟨fun _ _ _ hab hbc => le_trans hab hbc⟩

/-- `all_rows.sort(key=sort_key)`.  Python's `list.sort` is a stable sort by
the key; the stable order is unique, and `List.insertionSort` with the
non-strict key relation places each earlier row before later rows of equal
key, so it computes exactly that order. -/
def masterSort (rows : List EventRow) : List EventRow :=
  List.insertionSort rowLe rows

/-- The last attacks value assigned by the loop (`[]` when none).  The
`elif` chain tries the attacks pattern only on lines carrying none of the
four labels; the guard is part of the characterization (in fact no line
can both carry a label and match the attacks pattern, since the labels
start with `S`/`C`/`W` and the attacks pattern with a quote or `a`/`A`). -/
def lastAtkValueOf (lns : List (List Char)) : List Char :=
  match (lns.filterMap (fun ln =>
    if "Summary:".data.isPrefixOf ln || "Category:".data.isPrefixOf ln ||
        "Why Relevant:".data.isPrefixOf ln || "Source:".data.isPrefixOf ln then none
    else matchAtkValue ln)).getLast? with
  | some v => v
  | none => []


/-! ## Democracy Docket window filter and dedupe
(`step2_getdemocracydocket_v4.py`, `step2_helper_v4.py`) -/

/-- Numeric value of an ASCII digit. -/
def dval (c : Char) : Nat := c.toNat - 48

/-- `%Y` of `strptime`: exactly four digits. -/
def parseYear4 : List Char → Option (Nat × List Char)
  | a :: b :: c :: d :: rest =>
    if a.isDigit ∧ b.isDigit ∧ c.isDigit ∧ d.isDigit then
      some (((dval a * 10 + dval b) * 10 + dval c) * 10 + dval d, rest)
    else none
  | _ => none

/-- `%m` of `strptime`: the regex alternation `1[0-2]|0[1-9]|[1-9]`. -/
def parseMonth2 : List Char → Option (Nat × List Char)
  | a :: b :: rest =>
    if a = '1' ∧ b.isDigit ∧ dval b ≤ 2 then some (10 + dval b, rest)
    else if a = '0' ∧ b.isDigit ∧ 1 ≤ dval b then some (dval b, rest)
    else if a.isDigit ∧ 1 ≤ dval a then some (dval a, b :: rest)
    else none
  | [a] => if a.isDigit ∧ 1 ≤ dval a then some (dval a, []) else none
  | [] => none

/-- `%d` of `strptime`: the regex alternation `3[01]|[12]\d|0[1-9]|[1-9]`. -/
def parseDay2 : List Char → Option (Nat × List Char)
  | a :: b :: rest =>
    if a = '3' ∧ (b = '0' ∨ b = '1') then some (30 + dval b, rest)
    else if (a = '1' ∨ a = '2') ∧ b.isDigit then some (dval a * 10 + dval b, rest)
    else if a = '0' ∧ b.isDigit ∧ 1 ≤ dval b then some (dval b, rest)
    else if a.isDigit ∧ 1 ≤ dval a then some (dval a, b :: rest)
    else none
  | [a] => if a.isDigit ∧ 1 ≤ dval a then some (dval a, []) else none
  | [] => none

/-- Gregorian leap-year test, as in `datetime.date`. -/
def isLeap (y : Nat) : Bool := (y % 4 == 0 && y % 100 != 0) || y % 400 == 0

/-- Length of a month, as validated by the `datetime.date` constructor. -/
def daysInMonth (y m : Nat) : Nat :=
  if m = 2 then (if isLeap y then 29 else 28)
  else if m = 4 ∨ m = 6 ∨ m = 9 ∨ m = 11 then 30
  else 31

/-- `_to_date` (`datetime.strptime(iso, "%Y-%m-%d").date()`) as a total
function: `some` of the day number on success, `none` where Python raises. -/
def _to_date (s : List Char) : Option Int :=
  match parseYear4 s with
  | some (y, '-' :: r1) =>
    (match parseMonth2 r1 with
     | some (m, '-' :: r2) =>
       (match parseDay2 r2 with
        | some (d, []) =>
          if 1 ≤ y ∧ 1 ≤ d ∧ d ≤ daysInMonth y m then
            some (daysFromCivil y m d)
          else none
        | _ => none)
     | _ => none)
  | _ => none

/-- `within_window` from `step2_helper_v4.py`: false on empty or unparsable
dates, otherwise the inclusive two-sided comparison. -/
def within_window (iso start_iso end_iso : List Char) : Bool :=
  if iso.isEmpty then false
  else
    match _to_date iso, _to_date start_iso, _to_date end_iso with
    | some d, some s, some e => decide (s ≤ d ∧ d ≤ e)
    | _, _, _ => false

/-- A raw Democracy Docket snapshot item; an absent dict key is modelled as
the empty string (the code reads every key as `it.get(k) or ""`). -/
structure DDItem where
  title : List Char
  url : List Char
  canonical_url : List Char
  post_date : List Char
deriving DecidableEq

/-- The `stats` dict of `_filter_window_and_dedupe`: exactly five keys. -/
structure DDStats where
  inside : Nat
  outside : Nat
  nodate : Nat
  no_title : Nat
  no_url : Nat
deriving DecidableEq

/-- The `stats` dict rendered as an association list in insertion order. -/
def DDStats.toList (s : DDStats) : List (List Char × Nat) :=
  [("inside".data, s.inside), ("outside".data, s.outside),
   ("nodate".data, s.nodate), ("no_title".data, s.no_title),
   ("no_url".data, s.no_url)]

/-- One iteration of the window-filter loop of `_filter_window_and_dedupe`:
the `elif` chain tries `no_title`, `no_url`, `nodate`, `outside` in order and
keeps the item (counting `inside`) only when no reason fires. -/
def filterStep (start_iso end_iso : List Char)
    (acc : List DDItem × DDStats) (it : DDItem) : List DDItem × DDStats :=
  let title := pyTrim it.title
  let url := pyTrim (if it.canonical_url.isEmpty then it.url else it.canonical_url)
  let iso := pyTrim it.post_date
  if title.isEmpty then (acc.1, { acc.2 with no_title := acc.2.no_title + 1 })
  else if url.isEmpty then (acc.1, { acc.2 with no_url := acc.2.no_url + 1 })
  else if iso.isEmpty then (acc.1, { acc.2 with nodate := acc.2.nodate + 1 })
  else if !within_window iso start_iso end_iso then
    (acc.1, { acc.2 with outside := acc.2.outside + 1 })
  else (acc.1 ++ [it], { acc.2 with inside := acc.2.inside + 1 })

/-- One iteration of the dedupe loop: the key is
`r.get("canonical_url") or r.get("url") or ""` (not stripped); an empty or
already-seen key counts as a duplicate, otherwise the item is kept and the
key remembered.  State: (seen keys, deduped items, dups). -/
def dedupeStep (acc : List (List Char) × List DDItem × Nat) (r : DDItem) :
    List (List Char) × List DDItem × Nat :=
  let k := if r.canonical_url.isEmpty then r.url else r.canonical_url
  if k.isEmpty ∨ k ∈ acc.1 then (acc.1, acc.2.1, acc.2.2 + 1)
  else (k :: acc.1, acc.2.1 ++ [r], acc.2.2)

/-- The filter pass: `(kept_pre_dedupe, stats)`. -/
def ddFilterPass (items : List DDItem) (start_iso end_iso : List Char) :
    List DDItem × DDStats :=
  items.foldl (filterStep start_iso end_iso) ([], ⟨0, 0, 0, 0, 0⟩)

/-- The dedupe pass: `(seen, deduped, dups)`. -/
def ddDedupePass (kept : List DDItem) : List (List Char) × List DDItem × Nat :=
  kept.foldl dedupeStep ([], [], 0)

/-- `_filter_window_and_dedupe`: returns `(deduped, stats)`;
`len(snapshot_items)`, `len(kept_pre_dedupe)`, `len(deduped)` and `dups`
appear only in the log line. -/
def _filter_window_and_dedupe (items : List DDItem)
    (start_iso end_iso : List Char) : List DDItem × DDStats :=
  ((ddDedupePass (ddFilterPass items start_iso end_iso).1).2.1,
   (ddFilterPass items start_iso end_iso).2)

/-- An in-window Democracy Docket article (window 2025-02-01..2025-02-28). -/
def exDD1 : DDItem :=
  { title := "A court ruling".data, url := "https://example.org/a".data,
    canonical_url := "https://example.org/a".data,
    post_date := "2025-02-10".data }

/-- An item whose title strips to empty. -/
def exDDNoTitle : DDItem :=
  { title := "   ".data, url := "https://example.org/b".data,
    canonical_url := [], post_date := "2025-02-11".data }

/-- An item dated before the window. -/
def exDDOutside : DDItem :=
  { title := "Old news".data, url := "https://example.org/c".data,
    canonical_url := [], post_date := "2025-01-05".data }

/-- A snapshot of 8 items: 4 copies of one in-window article, 2 blank-title
items, 2 out-of-window items. -/
def exDDItems : List DDItem :=
  [exDD1, exDD1, exDD1, exDD1, exDDNoTitle, exDDNoTitle,
   exDDOutside, exDDOutside]

end Step2

namespace Step2

/-! ## Helper lemmas for the calendar -/

theorem inaugurationDay_val : INAUGURATION_DAY = 20108 := by decide

theorem firstFriday_val : FIRST_FRIDAY = 20112 := by decide

theorem firstSaturday_val : FIRST_SATURDAY = 20113 := by decide

theorem fdiv_seven_eq (delta k : Int) (h1 : 7 * k ≤ delta) (h2 : delta ≤ 7 * k + 6) :
    Int.fdiv delta 7 = k := by
  rw [Int.fdiv_eq_ediv _ (by norm_num)]
  omega

theorem daysJan20 : daysFromCivil 2025 1 20 = 20108 := by decide
theorem daysJan24 : daysFromCivil 2025 1 24 = 20112 := by decide
theorem daysJan25 : daysFromCivil 2025 1 25 = 20113 := by decide

theorem truthy_none : truthy none = false := rfl
theorem truthy_some (n : Int) : truthy (some n) = (n != 0) := rfl

/-- C1 -/
theorem resolve_week_calendar :
    resolve_date_window none none none (some 1) =
      .ok (daysFromCivil 2025 1 20, daysFromCivil 2025 1 24)
    ∧ daysFromCivil 2025 1 24 = daysFromCivil 2025 1 20 + 4
    ∧ dayOfWeek (daysFromCivil 2025 1 20) = 1
    ∧ dayOfWeek (daysFromCivil 2025 1 25) = 6
    ∧ (∀ n : Int, 2 ≤ n →
        resolve_date_window none none none (some n) =
          .ok (daysFromCivil 2025 1 25 + 7 * (n - 2),
               daysFromCivil 2025 1 25 + 7 * (n - 2) + 6))
    ∧ (∀ n m : Int, 2 ≤ n → 1 ≤ m →
        resolve_date_window none none (some m) (some n) =
          .ok (daysFromCivil 2025 1 25 + 7 * (n - 2),
               (daysFromCivil 2025 1 25 + 7 * (n - 2) + 6) + 7 * (m - 1))
        ∧ ((daysFromCivil 2025 1 25 + 7 * (n - 2) + 6) + 7 * (m - 1)) -
            (daysFromCivil 2025 1 25 + 7 * (n - 2)) + 1 = 7 * m)
    ∧ (∀ m : Int, 1 ≤ m →
        resolve_date_window none none (some m) (some 1) =
          .ok (daysFromCivil 2025 1 20, daysFromCivil 2025 1 24 + 7 * (m - 1))) := by
  rw [daysJan20, daysJan24, daysJan25]
  refine ⟨by rfl, by decide, by decide, by decide, ?_, ?_, ?_⟩
  · intro n hn
    have hne : (n != 0) = true := by simp; omega
    have hne1 : n ≠ 1 := by omega
    simp [resolve_date_window, truthy_some, truthy_none, hne, hne1, firstSaturday_val,
      if_neg (by omega : ¬ n < 1)]
    omega
  · intro n m hn hm
    have hne : (n != 0) = true := by simp; omega
    have hme : (m != 0) = true := by simp; omega
    have hne1 : n ≠ 1 := by omega
    rcases eq_or_lt_of_le hm with hm1 | hm1
    · have hm1' : (decide (1 < m)) = false := by simp; omega
      simp [resolve_date_window, truthy_some, truthy_none, hne, hme, hm1', hne1,
        firstSaturday_val, if_neg (by omega : ¬ n < 1)]
      all_goals omega
    · have hm1' : (decide (1 < m)) = true := by simp; omega
      simp [resolve_date_window, truthy_some, truthy_none, hne, hme, hm1', hne1,
        firstSaturday_val, if_neg (by omega : ¬ n < 1)]
      all_goals omega
  · intro m hm
    have hme : (m != 0) = true := by simp; omega
    rcases eq_or_lt_of_le hm with hm1 | hm1
    · have hm1' : (decide (1 < m)) = false := by simp; omega
      simp [resolve_date_window, truthy_some, truthy_none, hme, hm1',
        firstFriday_val, inaugurationDay_val]
      all_goals omega
    · have hm1' : (decide (1 < m)) = true := by simp; omega
      simp [resolve_date_window, truthy_some, truthy_none, hme, hm1',
        firstFriday_val, inaugurationDay_val]

/-- C1 witness -/
theorem resolve_week_calendar_witness :
    resolve_date_window none none (some 2) (some 3) = .ok (20120, 20133) := by
  have h := resolve_week_calendar.2.2.2.2.2.1 3 2 (by norm_num) (by norm_num)
  rw [daysJan25] at h
  rw [h.1]
  norm_num

/-- C7 counterexample -/
theorem resolve_accepts_inverted_window :
    resolve_date_window (some (daysFromCivil 2025 2 1)) (some (daysFromCivil 2025 1 13))
        none none =
      .ok (daysFromCivil 2025 2 1, daysFromCivil 2025 1 13)
    ∧ daysFromCivil 2025 1 13 < daysFromCivil 2025 2 1 := by
  constructor
  · rfl
  · decide

/-- C7 amended -/
theorem resolve_failure_modes (start end_ weeks week : Option Int) :
    (isError (resolve_date_window start end_ weeks week) = true ↔
      ((start = none ∧ truthy week = false)
        ∨ (start ≠ none ∧ end_ = none ∧ truthy weeks = false)
        ∨ (start ≠ none ∧ end_ = none ∧ truthy weeks = true ∧ weeks.getD 0 < 1)
        ∨ (start = none ∧ truthy week = true ∧ week.getD 0 < 1)))
    ∧ (∀ s e, resolve_date_window start end_ weeks week = .ok (s, e) →
        (start = none ∨ end_ = none) → s ≤ e) := by
  rcases start with _ | s
  · rcases week with _ | n
    · simp [resolve_date_window, truthy, isError]
    · by_cases hn0 : n = 0
      · simp [resolve_date_window, truthy, isError, hn0]
      · have hne : (n != 0) = true := by simp [hn0]
        by_cases hn1 : n < 1
        · simp [resolve_date_window, truthy, hne, isError, if_pos hn1]
          omega
        · rcases weeks with _ | k
          · simp [resolve_date_window, truthy, hne, isError, if_neg hn1]
            refine ⟨by omega, ?_⟩
            by_cases h1 : n = 1 <;>
              simp [h1, inaugurationDay_val, firstFriday_val, firstSaturday_val]
          · by_cases hk1 : (k != 0) = true ∧ 1 < k
            · have hd : (decide (1 < k)) = true := by simp; omega
              simp [resolve_date_window, truthy, hne, hk1.1, hd, isError, if_neg hn1]
              refine ⟨by omega, ?_⟩
              by_cases h1 : n = 1 <;>
                simp [h1, inaugurationDay_val, firstFriday_val, firstSaturday_val] <;> omega
            · have hand : ((k != 0) && decide (1 < k)) = false := by
                by_cases hk0 : k = 0
                · simp [hk0]
                · have h1 : ¬ (1 < k) := fun hlt => hk1 ⟨by simp [hk0], hlt⟩
                  simp [h1]
              simp [resolve_date_window, truthy, hne, hand, isError, if_neg hn1]
              refine ⟨by omega, ?_⟩
              by_cases h1 : n = 1 <;>
                simp [h1, inaugurationDay_val, firstFriday_val, firstSaturday_val]
  · rcases end_ with _ | e
    · rcases weeks with _ | k
      · simp [resolve_date_window, truthy, isError]
      · by_cases hk0 : k = 0
        · simp [resolve_date_window, truthy, isError, hk0]
        · have hke : (k != 0) = true := by simp [hk0]
          by_cases hk1 : k < 1
          · simp [resolve_date_window, truthy, hke, isError, if_pos hk1]
            omega
          · simp [resolve_date_window, truthy, hke, isError, if_neg hk1]
            omega
    · simp [resolve_date_window, truthy, isError]

/-- C7 amended witness -/
theorem resolve_failure_modes_witness :
    isError (resolve_date_window none none none none) = true := by
  have h := (resolve_failure_modes none none none none).1
  exact h.mpr (Or.inl ⟨rfl, rfl⟩)

theorem anchorW1S_val : _ANCHOR_W1_START = 20108 := by decide
theorem anchorW1E_val : _ANCHOR_W1_END = 20112 := by decide
theorem anchorW2S_val : _ANCHOR_W2_START = 20113 := by decide

/-- C10 -/
theorem dc_week_for_agrees_with_resolver :
    (∀ d : Int, dc_week_for d = none ↔ d < daysFromCivil 2025 1 20)
    ∧ (∀ n : Int, 1 ≤ n → ∀ s e d : Int,
        resolve_date_window none none none (some n) = .ok (s, e) →
        s ≤ d → d ≤ e → dc_week_for d = some (n, s, e)) := by
  constructor
  · intro d
    rw [daysJan20]
    by_cases h1 : d < _ANCHOR_W1_START
    · simp [dc_week_for, h1, anchorW1S_val] at h1 ⊢
      omega
    · by_cases h2 : d ≤ _ANCHOR_W1_END
      · simp [dc_week_for, h1, h2, anchorW1S_val] at h1 ⊢
      · simp [dc_week_for, h1, h2, anchorW1S_val] at h1 ⊢
  · intro n hn s e d hok hsd hde
    have hne : (n != 0) = true := by simp; omega
    by_cases h1 : n = 1
    · subst h1
      simp [resolve_date_window, truthy, hne, inaugurationDay_val, firstFriday_val] at hok
      obtain ⟨hs, he⟩ := hok
      rw [dc_week_for, if_neg (by rw [anchorW1S_val]; omega),
        if_pos (by rw [anchorW1E_val]; omega), anchorW1S_val, anchorW1E_val]
      simp only [Option.some.injEq, Prod.mk.injEq]
      exact ⟨trivial, hs, he⟩
    · have hn2 : 2 ≤ n := by omega
      simp [resolve_date_window, truthy, hne, h1, firstSaturday_val,
        if_neg (by omega : ¬ n < 1)] at hok
      obtain ⟨hs, he⟩ := hok
      rw [dc_week_for, if_neg (by rw [anchorW1S_val]; omega),
        if_neg (by rw [anchorW1E_val]; omega)]
      simp only [anchorW2S_val]
      rw [fdiv_seven_eq (d - 20113) (n - 2) (by omega) (by omega)]
      simp only [Option.some.injEq, Prod.mk.injEq]
      omega

/-- C10 witness -/
theorem dc_week_for_agrees_with_resolver_witness :
    dc_week_for 20115 = some (2, 20113, 20119) := by
  have h := dc_week_for_agrees_with_resolver.2 2 (by norm_num) 20113 20119 20115
  exact h (by rfl) (by norm_num) (by norm_num)

theorem pyTrim_eq_nil_iff (l : List Char) : pyTrim l = [] ↔ ∀ c ∈ l, pyIsSpace c := by
  unfold pyTrim pyStripP
  constructor
  · intro h c hc
    have h1 : (l.dropWhile pyIsSpace).reverse.dropWhile pyIsSpace = [] := by
      simpa using h
    rw [List.dropWhile_eq_nil_iff] at h1
    by_cases hcw : pyIsSpace c
    · exact hcw
    · exfalso
      have hdw := List.dropWhile_eq_nil_iff (l := l) (p := pyIsSpace)
      by_cases hnil : l.dropWhile pyIsSpace = []
      · rw [hdw] at hnil
        exact hcw (hnil c hc)
      · -- every element of the dropWhile result is whitespace per h1
        rcases List.exists_mem_of_ne_nil _ hnil with ⟨x, hx⟩
        -- in particular its head, which is not whitespace
        have hhead := List.head_dropWhile_not (p := pyIsSpace) (l := l) hnil
        have : pyIsSpace ((l.dropWhile pyIsSpace).head hnil) := by
          apply h1
          rw [List.mem_reverse]
          exact List.head_mem hnil
        simp [this] at hhead
  · intro h
    have h1 : l.dropWhile pyIsSpace = [] := by
      rw [List.dropWhile_eq_nil_iff]
      exact fun x hx => h x hx
    simp [h1]

theorem containsSub_infix (sub l : List Char) (h : containsSub sub l = true) :
    sub <:+: l := by
  unfold containsSub at h
  rw [List.any_eq_true] at h
  rcases h with ⟨t, ht, hpre⟩
  rw [List.mem_tails] at ht
  rw [List.isPrefixOf_iff_prefix] at hpre
  exact hpre.isInfix.trans ht.isInfix

theorem footer_nonblank (text : List Char)
    (h : containsSub "[END OF LOG]".data text = true) :
    text.isEmpty = false ∧ (pyTrim text).isEmpty = false := by
  have hinf := containsSub_infix _ _ h
  have hmem : '[' ∈ text := hinf.subset (by decide)
  have htrim : pyTrim text ≠ [] := by
    intro hnil
    rw [pyTrim_eq_nil_iff] at hnil
    have := hnil '[' hmem
    simp [pyIsSpace] at this
  constructor
  · rw [List.isEmpty_eq_false]
    intro hnil
    rw [hnil] at hmem
    exact absurd hmem (List.not_mem_nil _)
  · rw [List.isEmpty_eq_false]
    exact htrim

/-- C4 -/
theorem needs_schema_retry_spec (text : List Char) :
    ((text = [] ∨ containsSub "[END OF LOG]".data text = false) →
      _needs_schema_retry text = true)
    ∧ ((containsSub "[END OF LOG]".data text = true
        ∧ 1 ≤ (_preparse_compliance_scan text).count_category_lines
        ∧ 1 ≤ (_preparse_compliance_scan text).count_why_lines
        ∧ 1 ≤ (_preparse_compliance_scan text).count_attacks_lines) →
      _needs_schema_retry text = false) := by
  constructor
  · rintro (hnil | hfoot)
    · subst hnil
      rfl
    · by_cases hnil : text = []
      · subst hnil
        rfl
      · have hne : text.isEmpty = false := by simpa using hnil
        by_cases hb : (pyTrim text).isEmpty = true
        · simp [_needs_schema_retry, hne, hb]
        · have hb2 : (pyTrim text).isEmpty = false := by
            rcases Bool.eq_false_or_eq_true ((pyTrim text).isEmpty) with h | h
            · exact absurd h hb
            · exact h
          simp [_needs_schema_retry, hne, hb2, _preparse_compliance_scan, hfoot]
  · rintro ⟨hfoot, hcat, hwhy, hatk⟩
    obtain ⟨hne, hblank⟩ := footer_nonblank text hfoot
    have h1 : (_preparse_compliance_scan text).has_footer_end_of_log = true := by
      simp [_preparse_compliance_scan, hne, hfoot]
    have e1 : (_preparse_compliance_scan text).count_category_lines ≠ 0 := by omega
    have e2 : (_preparse_compliance_scan text).count_why_lines ≠ 0 := by omega
    have e3 : (_preparse_compliance_scan text).count_attacks_lines ≠ 0 := by omega
    simp [_needs_schema_retry, hne, hblank, h1, e1, e2, e3]

/-- C4 witness -/
theorem needs_schema_retry_spec_witness :
    _needs_schema_retry ("No markers here at all".data) = true
    ∧ _needs_schema_retry
        ("2025-02-03 — Event\nCategory: Judicial Developments\nWhy Relevant: x\nAttacks: [a]\n[END OF LOG]".data) = false := by
  constructor
  · exact (needs_schema_retry_spec _).1 (Or.inr (by decide))
  · exact (needs_schema_retry_spec _).2 ⟨by decide, by decide, by decide, by decide⟩

theorem pyStripP_as_rdrop (p : Char → Bool) (l : List Char) :
    pyStripP p l = List.rdropWhile p (l.dropWhile p) := rfl

theorem pyTrim_idem (l : List Char) : pyTrim (pyTrim l) = pyTrim l := by
  show pyStripP pyIsSpace (pyStripP pyIsSpace l) = pyStripP pyIsSpace l
  rw [pyStripP_as_rdrop, pyStripP_as_rdrop]
  have hdrop :
      (List.rdropWhile pyIsSpace (l.dropWhile pyIsSpace)).dropWhile pyIsSpace =
        List.rdropWhile pyIsSpace (l.dropWhile pyIsSpace) := by
    rw [List.dropWhile_eq_self_iff]
    intro hl
    have hpre := List.rdropWhile_prefix pyIsSpace (l.dropWhile pyIsSpace)
    have hget := hpre.getElem (n := 0) (by simpa using hl)
    have hy : 0 < (l.dropWhile pyIsSpace).length :=
      Nat.lt_of_lt_of_le (by simpa using hl) hpre.length_le
    have hnot := List.dropWhile_get_zero_not pyIsSpace l hy
    simp only [List.get_eq_getElem] at hnot ⊢
    rw [hget]
    exact hnot
  rw [hdrop, List.rdropWhile_idempotent]

/-- C3 -/
theorem extract_retry_policy
    (complete : List Message → List Char) (messages : List Message) :
    ∃ res calls,
      extractLLM (fun m => .ok (complete m)) messages = .ok (res, calls)
      ∧ calls.length ≤ 2
      ∧ calls.head? = some messages
      ∧ (calls.length = 2 ↔
          (complete messages = []
            ∨ pyTrim (complete messages) = "RETRY_SCHEMA".data
            ∨ _needs_schema_retry (complete messages) = true))
      ∧ (calls.length = 2 →
          calls = [messages, messages ++ [("user".data, retryUserContent)]])
      ∧ (calls.length = 2 →
          _needs_schema_retry (complete (_retry_append_instruction messages)) = false →
          res = pyTrim (complete (_retry_append_instruction messages)))
      ∧ (calls.length = 2 →
          _needs_schema_retry (complete (_retry_append_instruction messages)) = true →
          res = pyTrim (complete messages))
      ∧ (calls.length = 1 → res = pyTrim (complete messages)) := by
  by_cases hc : (pyTrim (complete messages) == "RETRY_SCHEMA".data
      || _needs_schema_retry (complete messages)) = true
  · by_cases hr : _needs_schema_retry (complete (_retry_append_instruction messages)) = true
    · refine ⟨pyTrim (complete messages),
        [messages, messages ++ [("user".data, retryUserContent)]], ?_, by simp, by simp,
        ?_, by simp [_retry_append_instruction], by simp [hr], by simp [hr], by simp⟩
      · have hr2 : _needs_schema_retry
            (complete (messages ++ [("user".data, retryUserContent)])) = true := by
          simpa [_retry_append_instruction] using hr
        simp only [extractLLM, hc, if_true, _retry_append_instruction, hr2]
        simp
      · simp only [List.length_cons, List.length_nil]
        constructor
        · intro _
          rcases Bool.or_eq_true_iff.mp hc with h | h
          · exact Or.inr (Or.inl (by simpa using h))
          · exact Or.inr (Or.inr h)
        · intro _
          trivial
    · have hr2 : _needs_schema_retry (complete (_retry_append_instruction messages)) = false := by
        rcases Bool.eq_false_or_eq_true (_needs_schema_retry (complete (_retry_append_instruction messages))) with h | h
        · exact absurd h hr
        · exact h
      refine ⟨pyTrim (pyTrim (complete (_retry_append_instruction messages))),
        [messages, messages ++ [("user".data, retryUserContent)]], ?_, by simp, by simp,
        ?_, by simp [_retry_append_instruction], ?_, by simp [hr2], by simp⟩
      · have hr3 : _needs_schema_retry
            (complete (messages ++ [("user".data, retryUserContent)])) = false := by
          simpa [_retry_append_instruction] using hr2
        simp only [extractLLM, hc, if_true, _retry_append_instruction, hr3]
      · simp only [List.length_cons, List.length_nil]
        constructor
        · intro _
          rcases Bool.or_eq_true_iff.mp hc with h | h
          · exact Or.inr (Or.inl (by simpa using h))
          · exact Or.inr (Or.inr h)
        · intro _
          trivial
      · intro _ _
        exact pyTrim_idem _
  · have hc2 : (pyTrim (complete messages) == "RETRY_SCHEMA".data
        || _needs_schema_retry (complete messages)) = false := by
      rcases Bool.eq_false_or_eq_true (pyTrim (complete messages) == "RETRY_SCHEMA".data
        || _needs_schema_retry (complete messages)) with h | h
      · exact absurd h hc
      · exact h
    refine ⟨pyTrim (complete messages), [messages], ?_, by simp, by simp, ?_,
      by simp, by simp, by simp, by simp⟩
    · simp only [extractLLM, hc2]
      simp
    · simp only [List.length_cons, List.length_nil]
      constructor
      · omega
      · intro h
        exfalso
        rcases h with h | h | h
        · have : _needs_schema_retry (complete messages) = true := by
            rw [h]
            rfl
          simp [this] at hc2
        · have : (pyTrim (complete messages) == "RETRY_SCHEMA".data) = true := by
            simp [h]
          simp [this] at hc2
        · simp [h] at hc2

/-- A reply text that passes the compliance scan (used in witnesses). -/
def goodReply : List Char :=
  "2025-02-03 — E\nCategory: x\nWhy Relevant: y\nAttacks: [z]\n[END OF LOG]".data

/-- C3 witness -/
theorem extract_retry_policy_witness :
    ∃ res calls,
      extractLLM
          (fun ms => Except.ok (if ms.length == 1 then "bad".data else goodReply))
          [("system".data, "p".data)] = .ok (res, calls)
        ∧ calls.length = 2 ∧ res = pyTrim goodReply := by
  obtain ⟨res, calls, h1, _, _, hiff, _, hpass, _, _⟩ :=
    extract_retry_policy
      (fun ms => if ms.length == 1 then "bad".data else goodReply)
      [("system".data, "p".data)]
  have hlen : calls.length = 2 := hiff.mpr (Or.inr (Or.inr (by decide)))
  refine ⟨res, calls, h1, hlen, ?_⟩
  have hres := hpass hlen (by decide)
  rw [hres]
  decide

/-- C6 counterexample -/
theorem extract_raises_on_llm_failure :
    extract_events_from_url "https://example.org/a".data
        ("article body text".data, 200)
        [("system".data, "p".data)]
        (fun _ => Except.error "connection reset".data) =
      .error "connection reset".data := by
  rfl

/-- C6 amended: fetch failures are converted to the fetch sentinel inside
the extraction functions; completion-service failures propagate out as
errors, and each builder's own per-item wrapper converts them to its
sentinel text — `"(Extraction error: ...)"` in eight feed builders,
`"(LLM extraction failed: ...)"` in `step2_buildhcr_v4.py`. -/
theorem extract_failure_handling :
    (∀ (url art : List Char) (rc : Int) (msgs : List Message)
        (complete : List Message → Except (List Char) (List Char)),
        (rc != 200 || (pyTrim art).isEmpty) = true →
        extract_events_from_url url (art, rc) msgs complete = .ok (failSentinel url rc))
    ∧ (∀ t : List Char, builder_llm_text (.ok t) = t)
    ∧ (∀ e : List Char, builder_llm_text (.error e) =
        "(Extraction error: ".data ++ e ++ ")".data)
    ∧ (∀ t : List Char, hcr_llm_text (.ok t) = t)
    ∧ (∀ e : List Char, hcr_llm_text (.error e) =
        "(LLM extraction failed: ".data ++ e ++ ")".data)
    ∧ (∀ (url : List Char) (fr : List Char × Int) (msgs : List Message)
        (complete : List Message → Except (List Char) (List Char)) (e : List Char),
        extract_events_from_url url fr msgs complete = .error e →
        builder_llm_text (extract_events_from_url url fr msgs complete) =
          "(Extraction error: ".data ++ e ++ ")".data
        ∧ hcr_llm_text (extract_events_from_url url fr msgs complete) =
          "(LLM extraction failed: ".data ++ e ++ ")".data) := by
  refine ⟨?_, fun t => rfl, fun e => rfl, fun t => rfl, fun e => rfl, ?_⟩
  · intro url art rc msgs complete h
    simp only [extract_events_from_url, h, if_true]
  · intro url fr msgs complete e h
    rw [h]
    exact ⟨rfl, rfl⟩

/-- C6 amended witness -/
theorem extract_failure_handling_witness :
    extract_events_from_url "u".data ("".data, 0) []
        (fun _ => Except.error "x".data) = .ok (failSentinel "u".data 0)
    ∧ builder_llm_text (Except.error "boom".data) = "(Extraction error: boom)".data
    ∧ hcr_llm_text (Except.error "boom".data) =
        "(LLM extraction failed: boom)".data := by
  refine ⟨?_, ?_, ?_⟩
  · exact extract_failure_handling.1 "u".data "".data 0 []
      (fun _ => Except.error "x".data) (by decide)
  · rw [extract_failure_handling.2.2.1 "boom".data]
    decide
  · rw [extract_failure_handling.2.2.2.2.1 "boom".data]
    decide

theorem pyRstrip_as_rdrop (l : List Char) : pyRstrip l = List.rdropWhile pyIsSpace l := rfl

theorem pyTrim_as_rdrop_drop (l : List Char) :
    pyTrim l = List.rdropWhile pyIsSpace (l.dropWhile pyIsSpace) := rfl

theorem pyTrim_eq_self_parts (v : List Char) (h : pyTrim v = v) :
    v.dropWhile pyIsSpace = v ∧ List.rdropWhile pyIsSpace v = v := by
  have hdroplen : (v.dropWhile pyIsSpace).length = v.length := by
    have h1 : (List.rdropWhile pyIsSpace (v.dropWhile pyIsSpace)).length ≤
        (v.dropWhile pyIsSpace).length :=
      (List.rdropWhile_prefix _ _).length_le
    have h2 : (v.dropWhile pyIsSpace).length ≤ v.length :=
      (List.dropWhile_suffix _).length_le
    rw [pyTrim_as_rdrop_drop] at h
    rw [h] at h1
    omega
  have hdrop : v.dropWhile pyIsSpace = v :=
    (List.dropWhile_suffix pyIsSpace).eq_of_length hdroplen
  refine ⟨hdrop, ?_⟩
  rw [pyTrim_as_rdrop_drop, hdrop] at h
  exact h

theorem trimmed_head_not_space (v : List Char) (c : Char) (r : List Char)
    (h : pyTrim v = v) (hv : v = c :: r) : pyIsSpace c = false := by
  obtain ⟨hdrop, _⟩ := pyTrim_eq_self_parts v h
  subst hv
  rcases Bool.eq_false_or_eq_true (pyIsSpace c) with hc | hc
  swap
  · exact hc
  · rw [List.dropWhile_cons_of_pos hc] at hdrop
    have := congrArg List.length hdrop
    have hle := (List.dropWhile_suffix (l := r) pyIsSpace).length_le
    simp at this
    omega

theorem trimmed_last_not_space (v : List Char) (h : pyTrim v = v) (hne : v ≠ []) :
    pyIsSpace (v.getLast hne) = false := by
  obtain ⟨_, hrdrop⟩ := pyTrim_eq_self_parts v h
  have := List.rdropWhile_eq_self_iff.mp hrdrop hne
  rcases Bool.eq_false_or_eq_true (pyIsSpace (v.getLast hne)) with hc | hc
  · exact absurd hc this
  · exact hc

theorem dropWhile_of_trimmed (v : List Char) (h : pyTrim v = v) :
    v.dropWhile pyIsSpace = v := (pyTrim_eq_self_parts v h).1

theorem pyTrim_cons_space (c : Char) (v : List Char) (hc : pyIsSpace c = true) :
    pyTrim (c :: v) = pyTrim v := by
  rw [pyTrim_as_rdrop_drop, pyTrim_as_rdrop_drop, List.dropWhile_cons_of_pos hc]

theorem pyTrim_of_trimmed (v : List Char) (h : pyTrim v = v) : pyTrim v = v := h

theorem pyRstrip_eq_self (l : List Char) (hne : l ≠ [])
    (h : pyIsSpace (l.getLast hne) = false) : pyRstrip l = l := by
  rw [pyRstrip_as_rdrop]
  rw [List.rdropWhile_eq_self_iff]
  intro hl
  simp [h]

theorem getLast_append_right (xs v : List Char) (hv : v ≠ []) :
    ∃ hne : xs ++ v ≠ [], (xs ++ v).getLast hne = v.getLast hv := by
  have hne : xs ++ v ≠ [] := by simp [hv]
  exact ⟨hne, List.getLast_append_of_ne_nil hv⟩

theorem splitP_ne_nil (p : Char → Bool) (l : List Char) : splitP p l ≠ [] := by
  cases l with
  | nil => simp [splitP]
  | cons c r =>
    unfold splitP
    by_cases hc : p c
    · simp [hc]
    · simp only [hc, if_false]
      rcases h : splitP p r with _ | ⟨a, t⟩
      · simp
      · simp

theorem toLines_nl_cons (b : List Char) : toLines ('\n' :: b) = [] :: toLines b := by
  simp [toLines, splitP]

theorem toLines_cons_of_ne (c : Char) (b : List Char) (hc : c ≠ '\n') :
    toLines (c :: b) =
      ((toLines b).headD []).cons c :: (toLines b).tail := by
  have hpc : (decide (c = '\n')) = false := by simp [hc]
  unfold toLines
  rcases h : splitP (fun x => decide (x = '\n')) b with _ | ⟨a, t⟩
  · exact absurd h (splitP_ne_nil _ _)
  · simp [splitP, hpc, h]

theorem toLines_append_line (a b : List Char) (ha : ∀ c ∈ a, c ≠ '\n') :
    toLines (a ++ '\n' :: b) = a :: toLines b := by
  induction a with
  | nil => simpa using toLines_nl_cons b
  | cons c a' ih =>
    have hc : c ≠ '\n' := ha c (by simp)
    have ih2 := ih (fun x hx => ha x (by simp [hx]))
    rw [List.cons_append, toLines_cons_of_ne c _ hc, ih2]
    simp

theorem splitP_cons_of_neg (p : Char → Bool) (c : Char) (b : List Char)
    (hc : p c = false) :
    splitP p (c :: b) = ((splitP p b).headD []).cons c :: (splitP p b).tail := by
  rcases h : splitP p b with _ | ⟨a, t⟩
  · exact absurd h (splitP_ne_nil _ _)
  · simp [splitP, hc, h]

theorem splitP_append_sep (p : Char → Bool) (a b : List Char) (sepc : Char)
    (hp : p sepc = true) (ha : ∀ c ∈ a, p c = false) :
    splitP p (a ++ sepc :: b) = a :: splitP p b := by
  induction a with
  | nil => simp [splitP, hp]
  | cons c a' ih =>
    have hc : p c = false := ha c (by simp)
    have ih2 := ih (fun x hx => ha x (by simp [hx]))
    rw [List.cons_append, splitP_cons_of_neg p c _ hc, ih2]
    simp

theorem splitP_no_sep (p : Char → Bool) (l : List Char)
    (h : ∀ c ∈ l, p c = false) : splitP p l = [l] := by
  induction l with
  | nil => rfl
  | cons c l' ih =>
    have hc : p c = false := h c (by simp)
    have ih2 := ih (fun x hx => h x (by simp [hx]))
    rw [splitP_cons_of_neg p c _ hc, ih2]
    simp

theorem splitP_joinSep (p : Char → Bool) (toks : List (List Char))
    (hcomma : p ',' = true)
    (hsp : p ' ' = false)
    (htoks : ∀ t ∈ toks, ∀ c ∈ t, p c = false) :
    splitP p (joinSep ", ".data toks) =
      match toks with
      | [] => [[]]
      | t :: ts => t :: ts.map (fun t2 => ' ' :: t2) := by
  match toks with
  | [] => rfl
  | [t] =>
    simp only [joinSep]
    rw [splitP_no_sep p t (htoks t (by simp))]
    simp
  | t :: t2 :: ts =>
    have hrest := splitP_joinSep p (t2 :: ts) hcomma hsp
      (fun x hx => htoks x (by simp at hx ⊢; tauto))
    have hassoc : joinSep ", ".data (t :: t2 :: ts) =
        t ++ ',' :: (' ' :: joinSep ", ".data (t2 :: ts)) := by
      simp [joinSep]
    rw [hassoc, splitP_append_sep p t _ ',' hcomma (htoks t (by simp)),
      splitP_cons_of_neg p ' ' _ hsp, hrest]
    simp

theorem pyIsSpace_space : pyIsSpace ' ' = true := rfl
theorem pyIsSpace_dash : pyIsSpace '—' = false := rfl

theorem matchDashTitle_canonical (title : List Char)
    (hne : title ≠ []) (htr : pyTrim title = title) :
    matchDashTitle (' ' :: '—' :: ' ' :: title) = some title := by
  have hdw : title.dropWhile pyIsSpace = title := dropWhile_of_trimmed title htr
  have hstep1 : List.dropWhile pyIsSpace (' ' :: '—' :: ' ' :: title) =
      '—' :: ' ' :: title := by
    rw [List.dropWhile_cons_of_pos pyIsSpace_space,
      List.dropWhile_cons_of_neg (by rw [pyIsSpace_dash]; simp)]
  have hstep2 : List.dropWhile pyIsSpace (' ' :: title) = title := by
    rw [List.dropWhile_cons_of_pos pyIsSpace_space, hdw]
  simp [matchDashTitle, hstep1, hstep2, pyIsSpace_space, hne]

theorem matchHeaderGroups_header (y1 y2 y3 y4 m1 m2 d1 d2 : Char) (title : List Char)
    (h1 : y1.isDigit = true) (h2 : y2.isDigit = true) (h3 : y3.isDigit = true)
    (h4 : y4.isDigit = true) (h5 : m1.isDigit = true) (h6 : m2.isDigit = true)
    (h7 : d1.isDigit = true) (h8 : d2.isDigit = true)
    (hne : title ≠ []) (htr : pyTrim title = title) :
    matchHeaderGroups ([y1, y2, y3, y4, '-', m1, m2, '-', d1, d2] ++ " — ".data ++ title) =
      some ([y1, y2, y3, y4, '-', m1, m2, '-', d1, d2], title) := by
  have hy1 : ('=' == y1) = false := by
    rcases Bool.eq_false_or_eq_true ('=' == y1) with h | h
    · exfalso
      have heq : '=' = y1 := by simpa using h
      rw [← heq] at h1
      simp at h1
    · exact h
  have hpre : "===".data.isPrefixOf
      ([y1, y2, y3, y4, '-', m1, m2, '-', d1, d2] ++ " — ".data ++ title) = false := by
    simp [List.isPrefixOf, hy1]
  unfold matchHeaderGroups
  rw [hpre]
  simp only [Bool.false_eq_true, if_false]
  have hshape : [y1, y2, y3, y4, '-', m1, m2, '-', d1, d2] ++ " — ".data ++ title =
      y1 :: y2 :: y3 :: y4 :: '-' :: m1 :: m2 :: '-' :: d1 :: d2 :: (' ' :: '—' :: ' ' :: title) := by
    simp
  rw [hshape]
  simp only [matchDate10, h1, h2, h3, h4, h5, h6, h7, h8, Bool.and_self, if_true]
  rw [matchDashTitle_canonical title hne htr]

theorem digit_not_space (c : Char) (h : c.isDigit = true) : pyIsSpace c = false := by
  rcases Bool.eq_false_or_eq_true (pyIsSpace c) with hs | hs
  · exfalso
    simp only [pyIsSpace, Bool.or_eq_true, decide_eq_true_eq] at hs
    rcases hs with ((((h1 | h1) | h1) | h1) | h1) | h1 <;> subst h1 <;>
      exact absurd h (by decide)
  · exact hs

theorem trim_nonempty_of_mem (l : List Char) (c : Char) (hc : c ∈ l)
    (hcs : pyIsSpace c = false) : (pyTrim l).isEmpty = false := by
  rcases Bool.eq_false_or_eq_true ((pyTrim l).isEmpty) with hs | hs
  · exfalso
    rw [List.isEmpty_iff] at hs
    rw [pyTrim_eq_nil_iff] at hs
    rw [hs c hc] at hcs
    simp at hcs
  · exact hs

theorem pyTrim_eq_self_of_ends (l : List Char) (hne : l ≠ [])
    (hh : ∀ c, l.head? = some c → pyIsSpace c = false)
    (hl : pyIsSpace (l.getLast hne) = false) : pyTrim l = l := by
  obtain ⟨c, r, rfl⟩ := List.exists_cons_of_ne_nil hne
  have hc : pyIsSpace c = false := hh c rfl
  have hdrop : (c :: r).dropWhile pyIsSpace = c :: r := by
    rw [List.dropWhile_cons_of_neg (by simp [hc])]
  rw [pyTrim_as_rdrop_drop, hdrop]
  rw [List.rdropWhile_eq_self_iff]
  intro h2
  simp [hl]

theorem self_isPrefixOf_append (l x : List Char) : l.isPrefixOf (l ++ x) = true := by
  rw [List.isPrefixOf_iff_prefix]
  exact List.prefix_append l x

theorem rstrip_label_line (label v : List Char)
    (hlab : pyRstrip (label ++ [' ']) = label) (htr : pyTrim v = v) :
    pyRstrip (label ++ ' ' :: v) = label ++ (if v.isEmpty then [] else ' ' :: v) := by
  rcases hv : v with _ | ⟨c, r⟩
  · simpa using hlab
  · rw [← hv]
    have hvne : v ≠ [] := by simp [hv]
    have hlast : pyIsSpace (v.getLast hvne) = false := trimmed_last_not_space v htr hvne
    have hne2 : (' ' :: v) ≠ [] := by simp
    have hne3 : label ++ ' ' :: v ≠ [] := by simp
    have hgl : (label ++ ' ' :: v).getLast hne3 = v.getLast hvne := by
      rw [List.getLast_append_of_ne_nil (show (' ' :: v) ≠ [] by simp)]
      rw [List.getLast_cons hvne]
    have : pyIsSpace ((label ++ ' ' :: v).getLast hne3) = false := by
      rw [hgl]
      exact hlast
    rw [pyRstrip_eq_self _ hne3 this]
    simp [hv]

theorem pyTrim_opt_value (v : List Char) (htr : pyTrim v = v) :
    pyTrim (if v.isEmpty then [] else ' ' :: v) = v := by
  rcases hv : v with _ | ⟨c, r⟩
  · rfl
  · rw [← hv]
    have : v.isEmpty = false := by simp [hv]
    rw [this]
    simp only [Bool.false_eq_true, if_false]
    rw [pyTrim_cons_space ' ' v pyIsSpace_space, htr]

theorem mem_joinSep (sep : List Char) (toks : List (List Char)) (c : Char)
    (hc : c ∈ joinSep sep toks) : c ∈ sep ∨ ∃ t ∈ toks, c ∈ t := by
  match toks with
  | [] => simp [joinSep] at hc
  | [t] =>
    simp only [joinSep] at hc
    exact Or.inr ⟨t, by simp, hc⟩
  | t :: t2 :: ts =>
    simp only [joinSep, List.append_assoc, List.mem_append] at hc
    rcases hc with h | h | h
    · exact Or.inr ⟨t, by simp, h⟩
    · exact Or.inl h
    · rcases mem_joinSep sep (t2 :: ts) c h with h2 | ⟨t3, ht3, hct⟩
      · exact Or.inl h2
      · exact Or.inr ⟨t3, by simp at ht3 ⊢; tauto, hct⟩

theorem joinSep_ne_nil_of_first (sep : List Char) (t : List Char) (ts : List (List Char))
    (ht : t ≠ []) : joinSep sep (t :: ts) ≠ [] := by
  match ts with
  | [] => simpa [joinSep] using ht
  | t2 :: ts2 =>
    simp only [joinSep]
    intro h
    rw [List.append_assoc] at h
    rcases List.append_eq_nil.mp h with ⟨h1, _⟩
    exact ht h1

theorem joinSep_getLast? (sep : List Char) (toks : List (List Char))
    (hne : ∀ t ∈ toks, t ≠ []) (t0 : List Char) (hmem : toks ≠ []) :
    ∃ tl ∈ toks, joinSep sep toks ≠ [] ∧
      (joinSep sep toks).getLast? = tl.getLast? := by
  match toks with
  | [] => exact absurd rfl hmem
  | [t] =>
    exact ⟨t, by simp, by simpa [joinSep] using hne t (by simp), rfl⟩
  | t :: t2 :: ts =>
    obtain ⟨tl, htl, hne2, hgl⟩ :=
      joinSep_getLast? sep (t2 :: ts) (fun x hx => hne x (by simp at hx ⊢; tauto)) t0
        (by simp)
    refine ⟨tl, by simp at htl ⊢; tauto, ?_, ?_⟩
    · simp only [joinSep]
      intro h
      rw [List.append_assoc] at h
      rcases List.append_eq_nil.mp h with ⟨h1, _⟩
      exact hne t (by simp) h1
    · simp only [joinSep, List.append_assoc]
      rw [List.getLast?_append, List.getLast?_append]
      obtain ⟨c, hc⟩ := Option.isSome_iff_exists.mp
        (by rw [List.getLast?_isSome]; exact hne2)
      rw [hc] at hgl
      rw [hc]
      rw [← hgl]
      rfl

theorem tokOk_ne_nil (t : List Char) (h : tokOk t = true) : t ≠ [] := by
  intro hnil
  subst hnil
  simp [tokOk, pyStripP] at h

theorem tokOk_trimmed (t : List Char) (h : tokOk t = true) : pyTrim t = t := by
  simp only [tokOk, valueOk, Bool.and_eq_true, beq_iff_eq] at h
  exact h.1.1.2

theorem tokOk_no_sep (t : List Char) (h : tokOk t = true) :
    ∀ c ∈ t, (decide (c = ',') || decide (c = ';')) = false := by
  simp only [tokOk, Bool.and_eq_true, List.all_eq_true] at h
  intro c hc
  have := h.1.2 c hc
  simpa using this

theorem tokOk_strip_ne_nil (t : List Char) (h : tokOk t = true) :
    (pyStripP (· = squote) (pyStripP (· = '"') t)).isEmpty = false := by
  simp only [tokOk, Bool.and_eq_true] at h
  have := h.2
  rcases Bool.eq_false_or_eq_true ((pyStripP (· = squote) (pyStripP (· = '"') t)).isEmpty) with hx | hx
  · rw [hx] at this
    simp at this
  · exact hx

theorem joinSep_head? (sep : List Char) (t : List Char) (ts : List (List Char))
    (ht : t ≠ []) : (joinSep sep (t :: ts)).head? = t.head? := by
  match ts with
  | [] => rfl
  | t2 :: ts2 =>
    simp only [joinSep, List.append_assoc, List.head?_append]
    obtain ⟨c, r, rfl⟩ := List.exists_cons_of_ne_nil ht
    rfl

theorem pyTrim_joinSep (atks : List (List Char))
    (htoks : ∀ t ∈ atks, tokOk t = true) :
    pyTrim (joinSep ", ".data atks) = joinSep ", ".data atks := by
  match atks with
  | [] => rfl
  | t :: ts =>
    have htne : t ≠ [] := tokOk_ne_nil t (htoks t (by simp))
    have hne : joinSep ", ".data (t :: ts) ≠ [] := joinSep_ne_nil_of_first _ t ts htne
    apply pyTrim_eq_self_of_ends _ hne
    · intro c hc
      rw [joinSep_head? _ t ts htne] at hc
      obtain ⟨c0, r, rfl⟩ := List.exists_cons_of_ne_nil htne
      simp at hc
      subst hc
      exact trimmed_head_not_space _ c0 r (tokOk_trimmed _ (htoks _ (by simp))) rfl
    · obtain ⟨tl, htl, hjne, hgl⟩ := joinSep_getLast? ", ".data (t :: ts)
        (fun x hx => tokOk_ne_nil x (htoks x hx)) [] (by simp)
      have htlne : tl ≠ [] := tokOk_ne_nil tl (htoks tl htl)
      have hlast := trimmed_last_not_space tl (tokOk_trimmed tl (htoks tl htl)) htlne
      rw [List.getLast?_eq_getLast _ hne, List.getLast?_eq_getLast _ htlne] at hgl
      have : (joinSep ", ".data (t :: ts)).getLast hne = tl.getLast htlne := by
        injection hgl
      rw [this]
      exact hlast

theorem filterMap_eq_map_of_mem {α β : Type} (f : α → Option β) (g : α → β)
    (l : List α) (h : ∀ x ∈ l, f x = some (g x)) : l.filterMap f = l.map g := by
  induction l with
  | nil => rfl
  | cons x xs ih =>
    rw [List.filterMap_cons, h x (by simp), List.map_cons,
      ih (fun y hy => h y (by simp [hy]))]

theorem normalizeAttacks_canonical (atks : List (List Char))
    (htoks : ∀ t ∈ atks, tokOk t = true) :
    normalizeAttacks ('[' :: (joinSep ", ".data atks ++ [']'])) =
      atks.map normAttackToken := by
  have hline_ne : ('[' :: (joinSep ", ".data atks ++ [']'])) ≠ [] := by simp
  have hlast : ('[' :: (joinSep ", ".data atks ++ [']'])).getLast hline_ne = ']' := by
    have : ('[' :: (joinSep ", ".data atks ++ [']'])) =
        ('[' :: joinSep ", ".data atks) ++ [']'] := by simp
    rw [List.getLast_congr _ _ this]
    exact List.getLast_concat _
  have htrim : pyTrim ('[' :: (joinSep ", ".data atks ++ [']'])) =
      '[' :: (joinSep ", ".data atks ++ [']']) := by
    apply pyTrim_eq_self_of_ends _ hline_ne
    · intro c hc
      simp at hc
      subst hc
      rfl
    · rw [hlast]
      rfl
  have hlast? : ('[' :: (joinSep ", ".data atks ++ [']'])).getLast? = some ']' := by
    rw [List.getLast?_eq_getLast _ hline_ne, hlast]
  have hdroplast : (joinSep ", ".data atks ++ [']']).dropLast = joinSep ", ".data atks :=
    List.dropLast_concat
  unfold normalizeAttacks
  rw [if_neg (by simp)]
  simp only [htrim, hlast?, List.drop_succ_cons, List.drop_zero, hdroplast]
  rw [if_pos (by simp)]
  rw [pyTrim_joinSep atks htoks]
  rw [splitP_joinSep _ atks (by decide) (by decide)
    (fun t ht c hc => by simpa using tokOk_no_sep t (htoks t ht) c hc)]
  match atks with
  | [] => rfl
  | t :: ts =>
    have hfirst : pyTrim t = t := tokOk_trimmed t (htoks t (by simp))
    have hhead :
        (fun part =>
          if (pyStripP (fun x => decide (x = squote))
              (pyStripP (fun x => decide (x = '"')) (pyTrim part))).isEmpty = true then
            none
          else
            some ((pyLower (pyStripP (fun x => decide (x = squote))
              (pyStripP (fun x => decide (x = '"')) (pyTrim part)))).map
                (fun c => if c = ' ' then '_' else c))) t
          = some (normAttackToken t) := by
      show (if (pyStripP (fun x => decide (x = squote))
              (pyStripP (fun x => decide (x = '"')) (pyTrim t))).isEmpty = true then
            none
          else
            some ((pyLower (pyStripP (fun x => decide (x = squote))
              (pyStripP (fun x => decide (x = '"')) (pyTrim t)))).map
                (fun c => if c = ' ' then '_' else c))) = some (normAttackToken t)
      rw [hfirst]
      rw [if_neg (by simpa using tokOk_strip_ne_nil t (htoks t (by simp)))]
      rfl
    rw [List.filterMap_cons_some (l := ts.map (fun t2 => ' ' :: t2)) hhead]
    congr 1
    rw [List.filterMap_map]
    apply filterMap_eq_map_of_mem
    intro x hx
    have htx : tokOk x = true := htoks x (by simp [hx])
    simp only [Function.comp]
    rw [pyTrim_cons_space ' ' x pyIsSpace_space, tokOk_trimmed x htx]
    rw [if_neg (by simpa using tokOk_strip_ne_nil x htx)]
    rfl

theorem matchDate10_none_head (x : Char) (r : List Char) (hx : x.isDigit = false) :
    matchDate10 (x :: r) = none := by
  rw [matchDate10.eq_def]
  split <;> simp_all

theorem isPrefixOf_false_of_head (a b : Char) (pa la : List Char) (h : (a == b) = false) :
    (a :: pa).isPrefixOf (b :: la) = false := by
  simp only [List.isPrefixOf, h, Bool.false_and]

theorem matchHeaderGroups_none_head (x : Char) (r : List Char)
    (hx : x.isDigit = false) (hx2 : ('=' == x) = false) :
    matchHeaderGroups (x :: r) = none := by
  unfold matchHeaderGroups
  have hpre : "===".data.isPrefixOf (x :: r) = false := by
    show ('=' :: '=' :: '=' :: []).isPrefixOf (x :: r) = false
    exact isPrefixOf_false_of_head '=' x _ _ hx2
  rw [hpre]
  simp only [Bool.false_eq_true, if_false]
  rw [matchDate10_none_head x r hx]

theorem pyTrim_bracket (j : List Char) :
    pyTrim ('[' :: (j ++ [']'])) = '[' :: (j ++ [']']) := by
  have hne : ('[' :: (j ++ [']'])) ≠ [] := by simp
  apply pyTrim_eq_self_of_ends _ hne
  · intro c hc
    simp at hc
    subst hc
    rfl
  · have hshape : ('[' :: (j ++ [']'])) = ('[' :: j) ++ [']'] := by simp
    rw [List.getLast_congr _ _ hshape, List.getLast_concat]
    rfl

theorem matchAtkValue_canonical (j : List Char) :
    matchAtkValue ("attacks: [".data ++ (j ++ "]".data)) =
      some ('[' :: (j ++ [']'])) := by
  show matchAtkValue
      ('a' :: 't' :: 't' :: 'a' :: 'c' :: 'k' :: 's' :: ':' :: ' ' :: '[' :: (j ++ [']'])) = _
  unfold matchAtkValue
  rw [if_pos (by rfl)]
  have hdw : List.dropWhile pyIsSpace (':' :: ' ' :: '[' :: (j ++ [']'])) =
      ':' :: ' ' :: '[' :: (j ++ [']']) := by
    rw [List.dropWhile_cons_of_neg (by simp [pyIsSpace])]
  change (match List.dropWhile pyIsSpace (':' :: ' ' :: '[' :: (j ++ [']'])) with
    | ':' :: r => if r.isEmpty = true then none else some (pyTrim r)
    | _ => none) = some ('[' :: (j ++ [']']))
  rw [hdw]
  change (if (' ' :: '[' :: (j ++ [']'])).isEmpty = true then none
    else some (pyTrim (' ' :: '[' :: (j ++ [']'])))) = some ('[' :: (j ++ [']']))
  simp only [List.isEmpty_cons, Bool.false_eq_true, if_false]
  rw [pyTrim_cons_space ' ' _ pyIsSpace_space, pyTrim_bracket]

theorem applyLine_summary_line (acc : BlockFields) (v : List Char)
    (htr : pyTrim v = v) :
    applyLine acc ("Summary:".data ++ (if v.isEmpty then [] else ' ' :: v)) =
      { acc with summary := v } := by
  unfold applyLine
  rw [if_pos (self_isPrefixOf_append _ _)]
  rw [List.drop_left, pyTrim_opt_value v htr]

theorem applyLine_category_line (acc : BlockFields) (v : List Char)
    (htr : pyTrim v = v) :
    applyLine acc ("Category:".data ++ (if v.isEmpty then [] else ' ' :: v)) =
      { acc with category := v } := by
  unfold applyLine
  rw [if_neg (by
    show ¬ ("Summary:".data.isPrefixOf ('C' :: ("ategory:".data ++ _)) = true)
    rw [show "Summary:".data = 'S' :: "ummary:".data from rfl]
    rw [isPrefixOf_false_of_head 'S' 'C' _ _ (by decide)]
    simp)]
  rw [if_pos (self_isPrefixOf_append _ _)]
  rw [List.drop_left, pyTrim_opt_value v htr]

theorem applyLine_why_line (acc : BlockFields) (v : List Char)
    (htr : pyTrim v = v) :
    applyLine acc ("Why Relevant:".data ++ (if v.isEmpty then [] else ' ' :: v)) =
      { acc with why := v } := by
  unfold applyLine
  rw [if_neg (by
    show ¬ ("Summary:".data.isPrefixOf ('W' :: ("hy Relevant:".data ++ _)) = true)
    rw [show "Summary:".data = 'S' :: "ummary:".data from rfl]
    rw [isPrefixOf_false_of_head 'S' 'W' _ _ (by decide)]
    simp)]
  rw [if_neg (by
    show ¬ ("Category:".data.isPrefixOf ('W' :: ("hy Relevant:".data ++ _)) = true)
    rw [show "Category:".data = 'C' :: "ategory:".data from rfl]
    rw [isPrefixOf_false_of_head 'C' 'W' _ _ (by decide)]
    simp)]
  rw [if_pos (self_isPrefixOf_append _ _)]
  rw [List.drop_left, pyTrim_opt_value v htr]

theorem applyLine_atk_line (acc : BlockFields) (j : List Char) :
    applyLine acc ("attacks: [".data ++ (j ++ "]".data)) =
      { acc with attacks_line := '[' :: (j ++ [']']) } := by
  unfold applyLine
  rw [if_neg (by
    show ¬ ("Summary:".data.isPrefixOf ('a' :: ("ttacks: [".data ++ _)) = true)
    rw [show "Summary:".data = 'S' :: "ummary:".data from rfl]
    rw [isPrefixOf_false_of_head 'S' 'a' _ _ (by decide)]
    simp)]
  rw [if_neg (by
    show ¬ ("Category:".data.isPrefixOf ('a' :: ("ttacks: [".data ++ _)) = true)
    rw [show "Category:".data = 'C' :: "ategory:".data from rfl]
    rw [isPrefixOf_false_of_head 'C' 'a' _ _ (by decide)]
    simp)]
  rw [if_neg (by
    show ¬ ("Why Relevant:".data.isPrefixOf ('a' :: ("ttacks: [".data ++ _)) = true)
    rw [show "Why Relevant:".data = 'W' :: "hy Relevant:".data from rfl]
    rw [isPrefixOf_false_of_head 'W' 'a' _ _ (by decide)]
    simp)]
  rw [if_neg (by
    show ¬ ("Source:".data.isPrefixOf ('a' :: ("ttacks: [".data ++ _)) = true)
    rw [show "Source:".data = 'S' :: "ource:".data from rfl]
    rw [isPrefixOf_false_of_head 'S' 'a' _ _ (by decide)]
    simp)]
  rw [matchAtkValue_canonical j]

theorem valueOk_trimmed (v : List Char) (h : valueOk v = true) : pyTrim v = v := by
  simp only [valueOk, Bool.and_eq_true, beq_iff_eq] at h
  exact h.2

theorem valueOk_no_nl (v : List Char) (h : valueOk v = true) : ∀ c ∈ v, c ≠ '\n' := by
  simp only [valueOk, Bool.and_eq_true, List.all_eq_true] at h
  intro c hc heq
  have h2 := h.1 c hc
  subst heq
  simp [pyIsLineBreak] at h2

theorem mem_concrete_ne_nl (l : List Char) (hl : l.all (fun c => !(c = '\n')) = true) :
    ∀ c ∈ l, c ≠ '\n' := by
  intro c hc
  have := List.all_eq_true.mp hl c hc
  simpa using this

theorem digit_ne_nl (c : Char) (h : c.isDigit = true) : c ≠ '\n' := by
  intro heq
  subst heq
  simp at h

theorem toLines_single (l : List Char) (h : ∀ c ∈ l, c ≠ '\n') :
    toLines l = [l] := by
  unfold toLines
  apply splitP_no_sep
  intro c hc
  simp [h c hc]

theorem toLines_mkBlock (date10 title summary category why : List Char)
    (atks : List (List Char))
    (hd : ∀ c ∈ date10, c ≠ '\n') (ht : ∀ c ∈ title, c ≠ '\n')
    (hs : ∀ c ∈ summary, c ≠ '\n') (hc : ∀ c ∈ category, c ≠ '\n')
    (hw : ∀ c ∈ why, c ≠ '\n')
    (ha : ∀ c ∈ joinSep ", ".data atks, c ≠ '\n') :
    toLines (mkCanonicalBlock date10 title summary category why atks) =
      [date10 ++ " — ".data ++ title,
       "Summary: ".data ++ summary,
       "Category: ".data ++ category,
       "Why Relevant: ".data ++ why,
       "attacks: [".data ++ (joinSep ", ".data atks ++ "]".data)] := by
  have hshape : mkCanonicalBlock date10 title summary category why atks =
      (date10 ++ " — ".data ++ title) ++ '\n' ::
      (("Summary: ".data ++ summary) ++ '\n' ::
      (("Category: ".data ++ category) ++ '\n' ::
      (("Why Relevant: ".data ++ why) ++ '\n' ::
      ("attacks: [".data ++ (joinSep ", ".data atks ++ "]".data))))) := by
    simp [mkCanonicalBlock, List.append_assoc]
  rw [hshape]
  rw [toLines_append_line _ _ (by
    intro c hcm
    simp only [List.append_assoc, List.mem_append] at hcm
    rcases hcm with h | h | h
    · exact hd c h
    · exact mem_concrete_ne_nl _ (by decide) c h
    · exact ht c h)]
  rw [toLines_append_line _ _ (by
    intro c hcm
    simp only [List.mem_append] at hcm
    rcases hcm with h | h
    · exact mem_concrete_ne_nl _ (by decide) c h
    · exact hs c h)]
  rw [toLines_append_line _ _ (by
    intro c hcm
    simp only [List.mem_append] at hcm
    rcases hcm with h | h
    · exact mem_concrete_ne_nl _ (by decide) c h
    · exact hc c h)]
  rw [toLines_append_line _ _ (by
    intro c hcm
    simp only [List.mem_append] at hcm
    rcases hcm with h | h
    · exact mem_concrete_ne_nl _ (by decide) c h
    · exact hw c h)]
  rw [toLines_single _ (by
    intro c hcm
    simp only [List.mem_append] at hcm
    rcases hcm with h | h | h
    · exact mem_concrete_ne_nl _ (by decide) c h
    · exact ha c h
    · exact mem_concrete_ne_nl _ (by decide) c h)]

theorem mkEvent_canonical
    (date10 title summary category why fallback : List Char) (atks : List (List Char))
    (hdtr : pyTrim date10 = date10)
    (htne : title ≠ []) (httr : pyTrim title = title)
    (hstr : pyTrim summary = summary) (hctr : pyTrim category = category)
    (hwtr : pyTrim why = why)
    (hat : ∀ t ∈ atks, tokOk t = true) :
    mkEvent fallback date10 title
      [date10 ++ " — ".data ++ title,
       "Summary: ".data ++ summary,
       "Category: ".data ++ category,
       "Why Relevant: ".data ++ why,
       "attacks: [".data ++ (joinSep ", ".data atks ++ "]".data)] =
      { date := date10, title := title, url := fallback, summary := summary,
        category := category, why_relevant := why,
        attacks := atks.map normAttackToken } := by
  obtain ⟨tc, tr, htcons⟩ := List.exists_cons_of_ne_nil htne
  have hthead : pyIsSpace tc = false := trimmed_head_not_space title tc tr httr htcons
  have htlast : pyIsSpace (title.getLast htne) = false := trimmed_last_not_space title httr htne
  -- every raw line survives the blank filter
  have k0 : (!(pyTrim (date10 ++ " — ".data ++ title)).isEmpty) = true := by
    rw [trim_nonempty_of_mem _ tc (by rw [htcons]; simp) hthead]
    rfl
  have k1 : (!(pyTrim ("Summary: ".data ++ summary)).isEmpty) = true := by
    rw [trim_nonempty_of_mem _ 'S' (List.mem_append.mpr (Or.inl (by decide))) (by decide)]
    rfl
  have k2 : (!(pyTrim ("Category: ".data ++ category)).isEmpty) = true := by
    rw [trim_nonempty_of_mem _ 'C' (List.mem_append.mpr (Or.inl (by decide))) (by decide)]
    rfl
  have k3 : (!(pyTrim ("Why Relevant: ".data ++ why)).isEmpty) = true := by
    rw [trim_nonempty_of_mem _ 'W' (List.mem_append.mpr (Or.inl (by decide))) (by decide)]
    rfl
  have k4 : (!(pyTrim ("attacks: [".data ++ (joinSep ", ".data atks ++ "]".data))).isEmpty) = true := by
    rw [trim_nonempty_of_mem _ 'a' (List.mem_append.mpr (Or.inl (by decide))) (by decide)]
    rfl
  -- rstrip leaves each line in a canonical shape
  have r0 : pyRstrip (date10 ++ " — ".data ++ title) = date10 ++ " — ".data ++ title := by
    have hne0 : date10 ++ " — ".data ++ title ≠ [] := by simp [htcons]
    apply pyRstrip_eq_self _ hne0
    have hshape : date10 ++ " — ".data ++ title = (date10 ++ " — ".data) ++ title := by
      simp
    rw [List.getLast_congr _ (by simp [htcons]) hshape,
      List.getLast_append_of_ne_nil htne]
    exact htlast
  have r1 : pyRstrip ("Summary: ".data ++ summary) =
      "Summary:".data ++ (if summary.isEmpty then [] else ' ' :: summary) := by
    rw [show "Summary: ".data ++ summary = "Summary:".data ++ ' ' :: summary from rfl]
    exact rstrip_label_line _ _ (by decide) hstr
  have r2 : pyRstrip ("Category: ".data ++ category) =
      "Category:".data ++ (if category.isEmpty then [] else ' ' :: category) := by
    rw [show "Category: ".data ++ category = "Category:".data ++ ' ' :: category from rfl]
    exact rstrip_label_line _ _ (by decide) hctr
  have r3 : pyRstrip ("Why Relevant: ".data ++ why) =
      "Why Relevant:".data ++ (if why.isEmpty then [] else ' ' :: why) := by
    rw [show "Why Relevant: ".data ++ why = "Why Relevant:".data ++ ' ' :: why from rfl]
    exact rstrip_label_line _ _ (by decide) hwtr
  have r4 : pyRstrip ("attacks: [".data ++ (joinSep ", ".data atks ++ "]".data)) =
      "attacks: [".data ++ (joinSep ", ".data atks ++ "]".data) := by
    have hne4 : "attacks: [".data ++ (joinSep ", ".data atks ++ "]".data) ≠ [] := by simp
    apply pyRstrip_eq_self _ hne4
    have hshape : "attacks: [".data ++ (joinSep ", ".data atks ++ "]".data) =
        ("attacks: [".data ++ joinSep ", ".data atks) ++ [']'] := by simp
    rw [List.getLast_congr _ (by simp) hshape, List.getLast_concat]
    rfl
  have hhttp1 : "http://".data.isPrefixOf
      ("Summary:".data ++ (if summary.isEmpty then [] else ' ' :: summary)) = false := by
    rw [show ("Summary:".data ++ (if summary.isEmpty then [] else ' ' :: summary)) =
        'S' :: ("ummary:".data ++ (if summary.isEmpty then [] else ' ' :: summary)) from rfl]
    rw [show "http://".data = 'h' :: "ttp://".data from rfl]
    exact isPrefixOf_false_of_head 'h' 'S' _ _ (by decide)
  have hhttps1 : "https://".data.isPrefixOf
      ("Summary:".data ++ (if summary.isEmpty then [] else ' ' :: summary)) = false := by
    rw [show ("Summary:".data ++ (if summary.isEmpty then [] else ' ' :: summary)) =
        'S' :: ("ummary:".data ++ (if summary.isEmpty then [] else ' ' :: summary)) from rfl]
    rw [show "https://".data = 'h' :: "ttps://".data from rfl]
    exact isPrefixOf_false_of_head 'h' 'S' _ _ (by decide)
  unfold mkEvent
  simp only [List.filter_cons, k0, k1, k2, k3, k4, if_true, List.filter_nil,
    List.map_cons, List.map_nil, r0, r1, r2, r3, r4]
  simp only [hhttp1, hhttps1, Bool.or_self, Bool.false_eq_true, if_false]
  simp only [scanFields, List.foldl_cons, List.foldl_nil,
    applyLine_summary_line _ _ hstr, applyLine_category_line _ _ hctr,
    applyLine_why_line _ _ hwtr]
  rw [show (['a', 't', 't', 'a', 'c', 'k', 's', ':', ' ', '['] ++
      (joinSep [',', ' '] atks ++ [']'])) =
      ("attacks: [".data ++ (joinSep ", ".data atks ++ "]".data)) from rfl]
  rw [applyLine_atk_line]
  simp only [List.isEmpty_nil, Bool.not_true, Bool.and_false, Bool.false_eq_true, if_false]
  rw [normalizeAttacks_canonical atks hat, hdtr, httr]
  simp

/-- C5 -/
theorem parser_roundtrip
    (y1 y2 y3 y4 m1 m2 d1 d2 : Char)
    (title summary category why fallback : List Char) (atks : List (List Char))
    (hdig : (y1.isDigit && y2.isDigit && y3.isDigit && y4.isDigit &&
             m1.isDigit && m2.isDigit && d1.isDigit && d2.isDigit) = true)
    (ht : valueOk title = true) (htne : title ≠ [])
    (hs : valueOk summary = true) (hc : valueOk category = true)
    (hw : valueOk why = true)
    (hat : ∀ t ∈ atks, tokOk t = true) :
    _parse_llm_events_canonical
        (mkCanonicalBlock [y1, y2, y3, y4, '-', m1, m2, '-', d1, d2]
          title summary category why atks)
        fallback =
      [{ date := [y1, y2, y3, y4, '-', m1, m2, '-', d1, d2], title := title,
         url := fallback, summary := summary, category := category,
         why_relevant := why, attacks := atks.map normAttackToken }] := by
  simp only [Bool.and_eq_true] at hdig
  obtain ⟨⟨⟨⟨⟨⟨⟨h1, h2⟩, h3⟩, h4⟩, h5⟩, h6⟩, h7⟩, h8⟩ := hdig
  set date10 : List Char := [y1, y2, y3, y4, '-', m1, m2, '-', d1, d2] with hdate10
  have hdnl : ∀ c ∈ date10, c ≠ '\n' := by
    intro c hcm
    rw [hdate10] at hcm
    simp at hcm
    rcases hcm with h | h | h | h | h | h | h | h | h | h <;> subst h <;>
      first
        | exact digit_ne_nl _ (by assumption)
        | decide
  have htnl := valueOk_no_nl title ht
  have hsnl := valueOk_no_nl summary hs
  have hcnl := valueOk_no_nl category hc
  have hwnl := valueOk_no_nl why hw
  have hanl : ∀ c ∈ joinSep ", ".data atks, c ≠ '\n' := by
    intro c hcm
    rcases mem_joinSep _ _ _ hcm with h | ⟨t, htm, hctm⟩
    · revert h
      have : ∀ x ∈ ", ".data, x ≠ '\n' := by decide
      exact this c
    · have hvo : valueOk t = true := by
        have := hat t htm
        simp only [tokOk, Bool.and_eq_true] at this
        exact this.1.1
      exact valueOk_no_nl t hvo c hctm
  have httr := valueOk_trimmed title ht
  have hstr := valueOk_trimmed summary hs
  have hctr := valueOk_trimmed category hc
  have hwtr := valueOk_trimmed why hw
  -- the five lines
  have hlines := toLines_mkBlock date10 title summary category why atks
    hdnl htnl hsnl hcnl hwnl hanl
  -- the text is not blank: y1 is a digit inside it
  have hnonblank : (pyTrim (mkCanonicalBlock date10 title summary category why atks)).isEmpty = false := by
    apply trim_nonempty_of_mem _ y1
    · have hshape : mkCanonicalBlock date10 title summary category why atks =
          (date10 ++ " — ".data ++ title) ++ '\n' ::
          (("Summary: ".data ++ summary) ++ '\n' ::
          (("Category: ".data ++ category) ++ '\n' ::
          (("Why Relevant: ".data ++ why) ++ '\n' ::
          ("attacks: [".data ++ (joinSep ", ".data atks ++ "]".data))))) := by
        simp [mkCanonicalBlock, List.append_assoc]
      rw [hshape]
      simp [hdate10]
    · exact digit_not_space y1 h1
  unfold _parse_llm_events_canonical
  rw [hnonblank]
  simp only [Bool.false_eq_true, if_false]
  rw [hlines]
  -- evaluate the block-grouping fold from the right
  have hhdr0 : matchHeaderGroups (date10 ++ " — ".data ++ title) =
      some (date10, title) := by
    rw [hdate10]
    exact matchHeaderGroups_header y1 y2 y3 y4 m1 m2 d1 d2 title
      h1 h2 h3 h4 h5 h6 h7 h8 htne httr
  have hhdr1 : matchHeaderGroups ("Summary: ".data ++ summary) = none := by
    show matchHeaderGroups ('S' :: ("ummary: ".data ++ summary)) = none
    exact matchHeaderGroups_none_head 'S' _ (by decide) (by decide)
  have hhdr2 : matchHeaderGroups ("Category: ".data ++ category) = none := by
    show matchHeaderGroups ('C' :: ("ategory: ".data ++ category)) = none
    exact matchHeaderGroups_none_head 'C' _ (by decide) (by decide)
  have hhdr3 : matchHeaderGroups ("Why Relevant: ".data ++ why) = none := by
    show matchHeaderGroups ('W' :: ("hy Relevant: ".data ++ why)) = none
    exact matchHeaderGroups_none_head 'W' _ (by decide) (by decide)
  have hhdr4 : matchHeaderGroups
      ("attacks: [".data ++ (joinSep ", ".data atks ++ "]".data)) = none := by
    show matchHeaderGroups ('a' :: ("ttacks: [".data ++ (joinSep ", ".data atks ++ "]".data))) = none
    exact matchHeaderGroups_none_head 'a' _ (by decide) (by decide)
  simp only [List.foldr_cons, List.foldr_nil, parseStep, hhdr0, hhdr1, hhdr2, hhdr3, hhdr4]
  have hd10tr : pyTrim date10 = date10 := by
    rw [hdate10]
    apply pyTrim_eq_self_of_ends _ (by simp)
    · intro c hch
      simp only [List.head?_cons, Option.some.injEq] at hch
      rw [← hch]
      exact digit_not_space y1 h1
    · have hgl : ([y1, y2, y3, y4, '-', m1, m2, '-', d1, d2].getLast (by simp)) = d2 := by
        simp
      rw [hgl]
      exact digit_not_space d2 h8
  rw [show (date10 ++ [' ', '—', ' '] ++ title) = date10 ++ " — ".data ++ title from rfl]
  rw [mkEvent_canonical date10 title summary category why fallback atks
    hd10tr htne httr hstr hctr hwtr hat]

/-- C5 witness -/
theorem parser_roundtrip_witness :
    _parse_llm_events_canonical
        (mkCanonicalBlock "2025-02-03".data "My Title".data "Sum text".data
          "Judicial Developments".data "Why text".data
          ["Rule of Law".data, "\"free press\"".data]) "https://fallback".data =
      [{ date := "2025-02-03".data, title := "My Title".data,
         url := "https://fallback".data, summary := "Sum text".data,
         category := "Judicial Developments".data, why_relevant := "Why text".data,
         attacks := ["rule_of_law".data, "free_press".data] }] := by
  have h := parser_roundtrip '2' '0' '2' '5' '0' '2' '0' '3'
    "My Title".data "Sum text".data "Judicial Developments".data "Why text".data
    "https://fallback".data ["Rule of Law".data, "\"free press\"".data]
    (by decide) (by decide) (by decide) (by decide) (by decide) (by decide) (by decide)
  rw [show "2025-02-03".data = ['2', '0', '2', '5', '-', '0', '2', '-', '0', '3'] from rfl]
  rw [h]
  decide

theorem isPrefixOf_cons_shape (a : Char) (p l : List Char)
    (h : (a :: p).isPrefixOf l = true) : ∃ r, l = a :: r ∧ p.isPrefixOf r = true := by
  cases l with
  | nil => simp [List.isPrefixOf] at h
  | cons b bs =>
    simp only [List.isPrefixOf, Bool.and_eq_true, beq_iff_eq] at h
    exact ⟨bs, by rw [h.1], h.2⟩

theorem sum_prefix_false_of_cat (l : List Char)
    (h : "Category:".data.isPrefixOf l = true) :
    "Summary:".data.isPrefixOf l = false := by
  obtain ⟨r, rfl, _⟩ := isPrefixOf_cons_shape 'C' _ l h
  exact isPrefixOf_false_of_head 'S' 'C' _ _ (by decide)

theorem sum_prefix_false_of_why (l : List Char)
    (h : "Why Relevant:".data.isPrefixOf l = true) :
    "Summary:".data.isPrefixOf l = false := by
  obtain ⟨r, rfl, _⟩ := isPrefixOf_cons_shape 'W' _ l h
  exact isPrefixOf_false_of_head 'S' 'W' _ _ (by decide)

theorem cat_prefix_false_of_why (l : List Char)
    (h : "Why Relevant:".data.isPrefixOf l = true) :
    "Category:".data.isPrefixOf l = false := by
  obtain ⟨r, rfl, _⟩ := isPrefixOf_cons_shape 'W' _ l h
  exact isPrefixOf_false_of_head 'C' 'W' _ _ (by decide)

theorem sum_prefix_false_of_src (l : List Char)
    (h : "Source:".data.isPrefixOf l = true) :
    "Summary:".data.isPrefixOf l = false := by
  obtain ⟨r, rfl, h2⟩ := isPrefixOf_cons_shape 'S' _ l h
  obtain ⟨r2, rfl, _⟩ := isPrefixOf_cons_shape 'o' _ r h2
  show ('S' :: 'u' :: "mmary:".data).isPrefixOf ('S' :: 'o' :: r2) = false
  simp only [List.isPrefixOf, Bool.and_eq_true]
  simp

theorem cat_prefix_false_of_src (l : List Char)
    (h : "Source:".data.isPrefixOf l = true) :
    "Category:".data.isPrefixOf l = false := by
  obtain ⟨r, rfl, _⟩ := isPrefixOf_cons_shape 'S' _ l h
  exact isPrefixOf_false_of_head 'C' 'S' _ _ (by decide)

theorem why_prefix_false_of_src (l : List Char)
    (h : "Source:".data.isPrefixOf l = true) :
    "Why Relevant:".data.isPrefixOf l = false := by
  obtain ⟨r, rfl, _⟩ := isPrefixOf_cons_shape 'S' _ l h
  exact isPrefixOf_false_of_head 'W' 'S' _ _ (by decide)

theorem applyLine_summary_eq (acc : BlockFields) (l : List Char) :
    (applyLine acc l).summary =
      if "Summary:".data.isPrefixOf l then
        pyTrim (l.drop "Summary:".data.length)
      else acc.summary := by
  unfold applyLine
  split_ifs <;> first
    | rfl
    | (rcases matchAtkValue l with _ | v <;> rfl)

theorem bool_eq_false {b : Bool} (h : ¬ b = true) : b = false := by
  rcases Bool.eq_false_or_eq_true b with h2 | h2
  · exact absurd h2 h
  · exact h2

theorem applyLine_category_eq (acc : BlockFields) (l : List Char) :
    (applyLine acc l).category =
      if "Category:".data.isPrefixOf l then
        pyTrim (l.drop "Category:".data.length)
      else acc.category := by
  unfold applyLine
  by_cases h1 : "Summary:".data.isPrefixOf l = true
  · simp only [h1, if_true]
    rw [if_neg (fun hc => by
      rw [sum_prefix_false_of_cat l hc] at h1
      exact absurd h1 (by simp))]
  · rw [if_neg h1]
    by_cases h2 : "Category:".data.isPrefixOf l = true
    · simp only [h2, if_true]
    · rw [if_neg h2, if_neg h2]
      split_ifs <;> first
        | rfl
        | (rcases matchAtkValue l with _ | v <;> rfl)

theorem applyLine_why_eq (acc : BlockFields) (l : List Char) :
    (applyLine acc l).why =
      if "Why Relevant:".data.isPrefixOf l then
        pyTrim (l.drop "Why Relevant:".data.length)
      else acc.why := by
  unfold applyLine
  by_cases h1 : "Summary:".data.isPrefixOf l = true
  · simp only [h1, if_true]
    rw [if_neg (fun hc => by
      rw [sum_prefix_false_of_why l hc] at h1
      exact absurd h1 (by simp))]
  · rw [if_neg h1]
    by_cases h2 : "Category:".data.isPrefixOf l = true
    · simp only [h2, if_true]
      rw [if_neg (fun hc => by
        rw [cat_prefix_false_of_why l hc] at h2
        exact absurd h2 (by simp))]
    · rw [if_neg h2]
      by_cases h3 : "Why Relevant:".data.isPrefixOf l = true
      · simp only [h3, if_true]
      · rw [if_neg h3, if_neg h3]
        split_ifs <;> first
          | rfl
          | (rcases matchAtkValue l with _ | v <;> rfl)

theorem applyLine_src_eq (acc : BlockFields) (l : List Char) :
    (applyLine acc l).alt_source_line =
      if "Source:".data.isPrefixOf l then
        pyTrim (l.drop "Source:".data.length)
      else acc.alt_source_line := by
  unfold applyLine
  by_cases h1 : "Summary:".data.isPrefixOf l = true
  · simp only [h1, if_true]
    rw [if_neg (fun hc => by
      rw [sum_prefix_false_of_src l hc] at h1
      exact absurd h1 (by simp))]
  · rw [if_neg h1]
    by_cases h2 : "Category:".data.isPrefixOf l = true
    · simp only [h2, if_true]
      rw [if_neg (fun hc => by
        rw [cat_prefix_false_of_src l hc] at h2
        exact absurd h2 (by simp))]
    · rw [if_neg h2]
      by_cases h3 : "Why Relevant:".data.isPrefixOf l = true
      · simp only [h3, if_true]
        rw [if_neg (fun hc => by
          rw [why_prefix_false_of_src l hc] at h3
          exact absurd h3 (by simp))]
      · rw [if_neg h3]
        by_cases h4 : "Source:".data.isPrefixOf l = true
        · simp only [h4, if_true]
        · rw [if_neg h4, if_neg h4]
          rcases matchAtkValue l with _ | v <;> rfl

theorem applyLine_atk_eq (acc : BlockFields) (l : List Char) :
    (applyLine acc l).attacks_line =
      match (if "Summary:".data.isPrefixOf l || "Category:".data.isPrefixOf l ||
          "Why Relevant:".data.isPrefixOf l || "Source:".data.isPrefixOf l then none
        else matchAtkValue l) with
      | some v => v
      | none => acc.attacks_line := by
  unfold applyLine
  by_cases h1 : "Summary:".data.isPrefixOf l = true
  · simp [h1]
  · rw [if_neg h1, bool_eq_false h1]
    by_cases h2 : "Category:".data.isPrefixOf l = true
    · simp [h2]
    · rw [if_neg h2, bool_eq_false h2]
      by_cases h3 : "Why Relevant:".data.isPrefixOf l = true
      · simp [h3]
      · rw [if_neg h3, bool_eq_false h3]
        by_cases h4 : "Source:".data.isPrefixOf l = true
        · simp [h4]
        · rw [if_neg h4, bool_eq_false h4]
          simp only [Bool.or_self, Bool.false_eq_true, if_false]
          rcases matchAtkValue l with _ | v <;> rfl

theorem lastValueOf_append (label : List Char) (lns : List (List Char)) (l : List Char) :
    lastValueOf label (lns ++ [l]) =
      if label.isPrefixOf l then pyTrim (l.drop label.length)
      else lastValueOf label lns := by
  unfold lastValueOf
  rw [List.filter_append]
  by_cases h : label.isPrefixOf l = true
  · simp only [List.filter_singleton, h, cond_true, List.getLast?_concat, if_true]
  · simp only [List.filter_singleton, bool_eq_false h, cond_false, List.append_nil,
      Bool.false_eq_true, if_false]

theorem lastAtkValueOf_append (lns : List (List Char)) (l : List Char) :
    lastAtkValueOf (lns ++ [l]) =
      match (if "Summary:".data.isPrefixOf l || "Category:".data.isPrefixOf l ||
          "Why Relevant:".data.isPrefixOf l || "Source:".data.isPrefixOf l then none
        else matchAtkValue l) with
      | some v => v
      | none => lastAtkValueOf lns := by
  unfold lastAtkValueOf
  rw [List.filterMap_append]
  rcases hg : (if "Summary:".data.isPrefixOf l || "Category:".data.isPrefixOf l ||
      "Why Relevant:".data.isPrefixOf l || "Source:".data.isPrefixOf l then none
    else matchAtkValue l) with _ | v
  · simp only [List.filterMap_cons, List.filterMap_nil, hg, List.append_nil]
  · simp only [List.filterMap_cons, List.filterMap_nil, hg]
    rw [List.getLast?_concat]

theorem scanFields_append (lns : List (List Char)) (l : List Char) :
    scanFields (lns ++ [l]) = applyLine (scanFields lns) l := by
  unfold scanFields
  rw [List.foldl_append]
  rfl

theorem scanFields_spec (lns : List (List Char)) :
    (scanFields lns).summary = lastValueOf "Summary:".data lns
    ∧ (scanFields lns).category = lastValueOf "Category:".data lns
    ∧ (scanFields lns).why = lastValueOf "Why Relevant:".data lns
    ∧ (scanFields lns).alt_source_line = lastValueOf "Source:".data lns
    ∧ (scanFields lns).attacks_line = lastAtkValueOf lns := by
  induction lns using List.reverseRecOn with
  | nil => exact ⟨rfl, rfl, rfl, rfl, rfl⟩
  | append_singleton lns l ih =>
    obtain ⟨ih1, ih2, ih3, ih4, ih5⟩ := ih
    rw [scanFields_append]
    refine ⟨?_, ?_, ?_, ?_, ?_⟩
    · rw [applyLine_summary_eq, lastValueOf_append]
      by_cases h : "Summary:".data.isPrefixOf l = true
      · simp [h]
      · simp [bool_eq_false h, ih1]
    · rw [applyLine_category_eq, lastValueOf_append]
      by_cases h : "Category:".data.isPrefixOf l = true
      · simp [h]
      · simp [bool_eq_false h, ih2]
    · rw [applyLine_why_eq, lastValueOf_append]
      by_cases h : "Why Relevant:".data.isPrefixOf l = true
      · simp [h]
      · simp [bool_eq_false h, ih3]
    · rw [applyLine_src_eq, lastValueOf_append]
      by_cases h : "Source:".data.isPrefixOf l = true
      · simp [h]
      · simp [bool_eq_false h, ih4]
    · rw [applyLine_atk_eq, lastAtkValueOf_append]
      rcases hg : (if "Summary:".data.isPrefixOf l || "Category:".data.isPrefixOf l ||
          "Why Relevant:".data.isPrefixOf l || "Source:".data.isPrefixOf l then none
        else matchAtkValue l) with _ | v
      · simp [ih5]
      · simp

theorem findFirstUrl_first (l : List Char) (i : Nat)
    (hmatch : urlAt (l.drop i) = true)
    (hfirst : ∀ j < i, urlAt (l.drop j) = false) :
    findFirstUrl l = some ((l.drop i).takeWhile (fun c => !pyIsSpace c)) := by
  induction l generalizing i with
  | nil =>
    rw [List.drop_nil] at hmatch
    simp [urlAt, List.isPrefixOf] at hmatch
  | cons c rest ih =>
    match i with
    | 0 =>
      rw [List.drop_zero] at hmatch ⊢
      unfold findFirstUrl
      rw [if_pos hmatch]
    | i2 + 1 =>
      have h0 := hfirst 0 (by omega)
      rw [List.drop_zero] at h0
      unfold findFirstUrl
      rw [h0]
      simp only [Bool.false_eq_true, if_false]
      rw [List.drop_succ_cons] at hmatch
      exact ih i2 hmatch (fun j hj => by
        have := hfirst (j + 1) (by omega)
        rwa [List.drop_succ_cons] at this)

/-- C8 counterexample -/
theorem parser_lowercase_label_ignored :
    (_parse_llm_events_canonical "2025-02-03 — T\nsummary: hello".data
        "https://f".data).map EventRec.summary = [[]]
    ∧ "hello".data ≠ ([] : List Char) := by
  constructor
  · decide
  · decide

/-- C8 amended -/
theorem parser_label_recognition :
    (∀ lns : List (List Char),
      (scanFields lns).summary = lastValueOf "Summary:".data lns
      ∧ (scanFields lns).category = lastValueOf "Category:".data lns
      ∧ (scanFields lns).why = lastValueOf "Why Relevant:".data lns
      ∧ (scanFields lns).alt_source_line = lastValueOf "Source:".data lns
      ∧ (scanFields lns).attacks_line = lastAtkValueOf lns)
    ∧ (∀ (l : List Char) (i : Nat),
        urlAt (l.drop i) = true →
        (∀ j < i, urlAt (l.drop j) = false) →
        findFirstUrl l = some ((l.drop i).takeWhile (fun c => !pyIsSpace c)))
    ∧ (_parse_llm_events_canonical
        "2025-02-03 — T\nSource: see https://src.example/y here".data
        "https://f".data).map EventRec.url = ["https://src.example/y".data]
    ∧ (_parse_llm_events_canonical
        "2025-02-03 — T\nSource: http:// https://real.example/x".data
        "https://f".data).map EventRec.url = ["https://real.example/x".data]
    ∧ (_parse_llm_events_canonical "2025-02-03 — T\nSummary: s".data
        "https://f".data).map EventRec.url = ["https://f".data] := by
  refine ⟨scanFields_spec, findFirstUrl_first, by decide, by decide, by decide⟩

/-- C8 amended witness -/
theorem parser_label_recognition_witness :
    findFirstUrl "see https://a.b x".data = some "https://a.b".data := by
  have h := parser_label_recognition.2.1 "see https://a.b x".data 4 (by decide) (by decide)
  rw [h]
  decide


/-- Helper examples for the C2 witness: three rows dated 2025-02-01,
2025-02-03, and undated. -/
def exRowBase : EventRow :=
  { source_key := "democracydocket".data, date_iso := [], date_obj := none,
    category := "Judicial Developments".data, title := "t".data,
    source_label := [], url := [], summary := [], why := [], attacks := [],
    origin_file := [], origin_index := 0 }

def exRowA : EventRow :=
  { exRowBase with date_iso := "2025-02-01".data,
                   date_obj := some (daysFromCivil 2025 2 1) }

def exRowB : EventRow :=
  { exRowBase with date_iso := "2025-02-03".data,
                   date_obj := some (daysFromCivil 2025 2 3) }

def exRowN : EventRow :=
  { exRowBase with title := "u".data }

theorem rowLe_char (a b : EventRow) : rowLe a b ↔
    ((match a.date_obj with | some d => d | none => dateMax) <
       (match b.date_obj with | some d => d | none => dateMax) ∨
     ((match a.date_obj with | some d => d | none => dateMax) =
        (match b.date_obj with | some d => d | none => dateMax) ∧
      ((_cat_rank a.category).1 < (_cat_rank b.category).1 ∨
       ((_cat_rank a.category).1 = (_cat_rank b.category).1 ∧
        (pyLower a.source_key < pyLower b.source_key ∨
         (pyLower a.source_key = pyLower b.source_key ∧
          pyLower a.title ≤ pyLower b.title)))))) := by
  simp only [rowLe, sort_key, Prod.Lex.le_iff, Prod.Lex.lt_iff]

theorem sortKey_lt_of_dates (a b : EventRow) (x y : Int)
    (ha : a.date_obj = some x) (hb : b.date_obj = some y) (h : x < y) :
    sort_key a < sort_key b := by
  simp only [sort_key, ha, hb]
  rw [Prod.Lex.lt_iff]
  exact Or.inl h

theorem sortKey_lt_of_none (a b : EventRow) (x : Int)
    (ha : a.date_obj = some x) (hb : b.date_obj = none) (h : x < dateMax) :
    sort_key a < sort_key b := by
  simp only [sort_key, ha, hb]
  rw [Prod.Lex.lt_iff]
  exact Or.inl h

/-- C2: the master merge sorts all rows by `sort_key`: the result is a
permutation of the input that is sorted by the non-strict key order; the
key orders rows by date ascending (undated rows keyed by `date.max`, hence
after every genuinely dated row), then by the 12-value canonical category
rank (`_cat_rank` maps the i-th known category to i, unknown non-empty
categories to 12 — just after the last known value — and blank to 13),
then by lower-cased source key, then by lower-cased title; and for any
three records dated 2025-02-01, 2025-02-03 and undated, the merged order
is [2025-02-01 record, 2025-02-03 record, undated record]. -/
theorem master_sort_spec :
    (∀ rows : List EventRow, (masterSort rows).Perm rows) ∧
    (∀ rows : List EventRow, List.Sorted rowLe (masterSort rows)) ∧
    (∀ a b : EventRow, rowLe a b ↔
      ((match a.date_obj with | some d => d | none => dateMax) <
         (match b.date_obj with | some d => d | none => dateMax) ∨
       ((match a.date_obj with | some d => d | none => dateMax) =
          (match b.date_obj with | some d => d | none => dateMax) ∧
        ((_cat_rank a.category).1 < (_cat_rank b.category).1 ∨
         ((_cat_rank a.category).1 = (_cat_rank b.category).1 ∧
          (pyLower a.source_key < pyLower b.source_key ∨
           (pyLower a.source_key = pyLower b.source_key ∧
            pyLower a.title ≤ pyLower b.title))))))) ∧
    (∀ a b : EventRow, ∀ d : Int, a.date_obj = some d →
      b.date_obj = none → d < dateMax → rowLe a b ∧ ¬ rowLe b a) ∧
    CATEGORY_ORDER.length = 12 ∧
    (∀ c i, listIndex c CATEGORY_ORDER = some i → _cat_rank c = (i, c)) ∧
    (∀ c, c ≠ [] → listIndex c CATEGORY_ORDER = none →
      _cat_rank c = (12, c)) ∧
    _cat_rank [] = (13, []) ∧
    (∀ ra rb rn : EventRow,
      ra.date_obj = some (daysFromCivil 2025 2 1) →
      rb.date_obj = some (daysFromCivil 2025 2 3) →
      rn.date_obj = none →
      masterSort [rb, rn, ra] = [ra, rb, rn]) := by
  refine ⟨fun rows => List.perm_insertionSort rowLe rows,
          fun rows => List.sorted_insertionSort rowLe rows,
          rowLe_char, ?_, rfl, ?_, ?_, rfl, ?_⟩
  · intro a b d ha hb hd
    constructor
    · exact le_of_lt (sortKey_lt_of_none a b d ha hb hd)
    · exact not_le.mpr (sortKey_lt_of_none a b d ha hb hd)
  · intro c i h
    have hne : c.isEmpty = false := by
      rcases c with _ | ⟨x, xs⟩
      · rw [show listIndex [] CATEGORY_ORDER = none from rfl] at h
        exact absurd h (by simp)
      · rfl
    simp [_cat_rank, hne, h]
  · intro c hc h
    have hne : c.isEmpty = false := by
      rcases c with _ | ⟨x, xs⟩
      · exact absurd rfl hc
      · rfl
    rw [_cat_rank.eq_def, hne, h]
    rfl
  · intro ra rb rn ha hb hn
    have dab : daysFromCivil 2025 2 1 < daysFromCivil 2025 2 3 := by decide
    have dbm : daysFromCivil 2025 2 3 < dateMax := by decide
    have dam : daysFromCivil 2025 2 1 < dateMax := by decide
    have n1 : ¬ rowLe rn ra :=
      not_le.mpr (sortKey_lt_of_none ra rn _ ha hn dam)
    have n2 : ¬ rowLe rb ra :=
      not_le.mpr (sortKey_lt_of_dates ra rb _ _ ha hb dab)
    have p1 : rowLe rb rn :=
      le_of_lt (sortKey_lt_of_none rb rn _ hb hn dbm)
    have s1 : List.orderedInsert rowLe rn [ra] = [ra, rn] := by
      rw [List.orderedInsert, if_neg n1, List.orderedInsert]
    have s2 : List.orderedInsert rowLe rb [ra, rn] = [ra, rb, rn] := by
      rw [List.orderedInsert, if_neg n2, List.orderedInsert, if_pos p1]
    simp only [masterSort, List.insertionSort]
    rw [show List.orderedInsert rowLe ra [] = [ra] from rfl, s1, s2]

/-- Witness for C2 at three concrete rows. -/
theorem master_sort_spec_witness :
    _cat_rank ("Judicial Developments".data) =
      (2, "Judicial Developments".data) ∧
    masterSort [exRowB, exRowN, exRowA] = [exRowA, exRowB, exRowN] :=
  ⟨master_sort_spec.2.2.2.2.2.1 ("Judicial Developments".data) 2 (by decide),
   master_sort_spec.2.2.2.2.2.2.2.2 exRowA exRowB exRowN rfl rfl rfl⟩


theorem filterStep_sum (s e : List Char) (acc : List DDItem × DDStats)
    (it : DDItem) :
    (filterStep s e acc it).2.inside + (filterStep s e acc it).2.outside +
      (filterStep s e acc it).2.nodate + (filterStep s e acc it).2.no_title +
      (filterStep s e acc it).2.no_url
      = acc.2.inside + acc.2.outside + acc.2.nodate + acc.2.no_title +
        acc.2.no_url + 1
    ∧ (filterStep s e acc it).1.length + acc.2.inside
      = acc.1.length + (filterStep s e acc it).2.inside := by
  simp only [filterStep]
  split_ifs <;> simp <;> omega

theorem ddFilter_invariant (s e : List Char) :
    ∀ (items : List DDItem) (acc : List DDItem × DDStats),
    (items.foldl (filterStep s e) acc).2.inside +
      (items.foldl (filterStep s e) acc).2.outside +
      (items.foldl (filterStep s e) acc).2.nodate +
      (items.foldl (filterStep s e) acc).2.no_title +
      (items.foldl (filterStep s e) acc).2.no_url
      = acc.2.inside + acc.2.outside + acc.2.nodate + acc.2.no_title +
        acc.2.no_url + items.length
    ∧ (items.foldl (filterStep s e) acc).1.length + acc.2.inside
      = acc.1.length + (items.foldl (filterStep s e) acc).2.inside
  | [], acc => by simp
  | it :: items, acc => by
    have hstep := filterStep_sum s e acc it
    have ih := ddFilter_invariant s e items (filterStep s e acc it)
    simp only [List.foldl_cons, List.length_cons]
    omega

theorem ddDedupe_invariant :
    ∀ (kept : List DDItem) (acc : List (List Char) × List DDItem × Nat),
    (kept.foldl dedupeStep acc).2.1.length + (kept.foldl dedupeStep acc).2.2
      = acc.2.1.length + acc.2.2 + kept.length
  | [], acc => by simp
  | r :: kept, acc => by
    have ih := ddDedupe_invariant kept (dedupeStep acc r)
    have hstep : (dedupeStep acc r).2.1.length + (dedupeStep acc r).2.2
        = acc.2.1.length + acc.2.2 + 1 := by
      simp only [dedupeStep]
      split_ifs <;> simp <;> omega
    simp only [List.foldl_cons, List.length_cons]
    omega

/-- C9: the filter/dedupe step returns the deduped kept items together with
a stats record holding exactly the five per-reason counters
`inside`/`outside`/`nodate`/`no_title`/`no_url` (with `inside` equal to the
count kept after filtering); the five counters always sum to the number of
items seen, and the kept items split exactly into the deduped output plus
the duplicates counted by the (logged-only) `dups` counter. -/
theorem filter_dedupe_stats :
    (∀ (items : List DDItem) (s e : List Char),
      _filter_window_and_dedupe items s e
        = ((ddDedupePass (ddFilterPass items s e).1).2.1,
           (ddFilterPass items s e).2)) ∧
    (∀ st : DDStats, st.toList =
      [("inside".data, st.inside), ("outside".data, st.outside),
       ("nodate".data, st.nodate), ("no_title".data, st.no_title),
       ("no_url".data, st.no_url)]) ∧
    (∀ (items : List DDItem) (s e : List Char),
      ((_filter_window_and_dedupe items s e).2).inside +
        ((_filter_window_and_dedupe items s e).2).outside +
        ((_filter_window_and_dedupe items s e).2).nodate +
        ((_filter_window_and_dedupe items s e).2).no_title +
        ((_filter_window_and_dedupe items s e).2).no_url = items.length) ∧
    (∀ (items : List DDItem) (s e : List Char),
      (ddFilterPass items s e).1.length
        = ((_filter_window_and_dedupe items s e).2).inside) ∧
    (∀ (items : List DDItem) (s e : List Char),
      (_filter_window_and_dedupe items s e).1.length +
        (ddDedupePass (ddFilterPass items s e).1).2.2
        = (ddFilterPass items s e).1.length) := by
  refine ⟨fun items s e => rfl, fun st => rfl, ?_, ?_, ?_⟩
  · intro items s e
    have h := (ddFilter_invariant s e items ([], ⟨0, 0, 0, 0, 0⟩)).1
    simpa [_filter_window_and_dedupe, ddFilterPass] using h
  · intro items s e
    have h := (ddFilter_invariant s e items ([], ⟨0, 0, 0, 0, 0⟩)).2
    simpa [_filter_window_and_dedupe, ddFilterPass] using h
  · intro items s e
    have h := ddDedupe_invariant (ddFilterPass items s e).1 ([], [], 0)
    simpa [_filter_window_and_dedupe, ddDedupePass] using h

/-- C9 counterexample: on a snapshot of 8 items (4 duplicates of one
in-window article, 2 blank-title items, 2 out-of-window items), the
returned stats is exactly the five per-reason counters; no entry of it
reports the total seen (8), the kept-after-dedupe count (1), or the number
of duplicates removed (3) — those figures are only logged, not returned. -/
theorem filter_stats_missing_totals :
    (_filter_window_and_dedupe exDDItems ("2025-02-01".data)
        ("2025-02-28".data)).1 = [exDD1] ∧
    ((_filter_window_and_dedupe exDDItems ("2025-02-01".data)
        ("2025-02-28".data)).2).toList
      = [("inside".data, 4), ("outside".data, 2), ("nodate".data, 0),
         ("no_title".data, 2), ("no_url".data, 0)] ∧
    exDDItems.length = 8 ∧
    (∀ p ∈ ((_filter_window_and_dedupe exDDItems ("2025-02-01".data)
        ("2025-02-28".data)).2).toList,
      p.2 ≠ 8 ∧ p.2 ≠ 1 ∧ p.2 ≠ 3) := by
  decide

end Step2
